import Mathlib

/-!
Verification of the temporal feature-matching and validation engine of the
tile2net frontend (src/frontend/src/data/realData.js and referenceData.js).

Numbers: the source computes with IEEE doubles; we model coordinates, lengths
and tolerances as exact rationals.  Two primitives are transcendental and are
therefore taken as parameters of the development:

* `sqrtFn` models `Math.sqrt` (used inside `getApproxLength` and inside the
  longest-edge search of `getBearing`);
* `atan2Fn` models `(dy, dx) => Math.atan2(dy, dx) * 180 / Math.PI`
  (degrees-valued, used by `getBearing`).

The centroid-distance test `Math.sqrt(dx*dx + dy*dy) > tol.DISTANCE` is
embedded sqrt-free as `distSq > tol.DISTANCE ^ 2`, which is exactly equivalent
over the reals whenever `tol.DISTANCE ≥ 0` (all tolerances of the program are
nonnegative, compare the Tolerance invariant of the data model).

Concrete theorems instantiate `sqrtFn` with `sqrtQ` (exact on perfect rational
squares) and `atan2Fn` with `atan2Q` (exact on axis-parallel vectors); every
geometry appearing in a concrete theorem below only ever feeds perfect squares
to `sqrtFn` and axis-parallel vectors to `atan2Fn`, so on those inputs the two
model functions agree with the real `Math.sqrt` / `Math.atan2`.
-/

namespace Tile2Net

/-- A coordinate pair `[lng, lat]`. -/
abbrev Point := ℚ × ℚ

/-- Geometry of a feature: the data model admits LineStrings (ordered vertex
chain) and Polygons (we carry the outer ring, which is the only ring the
source ever reads: `geometry.coordinates[0]`). -/
inductive Geometry where
  | lineString (coords : List Point)
  | polygon (ring : List Point)
deriving DecidableEq

/-- A feature; the property bag is irrelevant to matching and omitted. -/
structure Feature where
  geometry : Geometry
deriving DecidableEq

/-- Feature with an empty LineString, used as the default of list lookups that
the source performs without bounds checks (`beforeFeatures[idx]`); such
lookups are only ever made at indices produced by the index build. -/
def emptyFeature : Feature := ⟨.lineString []⟩

/-- Tolerance configuration.  `LENGTH_FRAC` is the field called
`LENGTH_RATIO` in the source (bounding `1 - minLen/maxLen`). -/
structure Tolerance where
  DISTANCE : ℚ
  LENGTH_FRAC : ℚ
  ANGLE : ℚ
deriving DecidableEq

/-- realData.js `DEFAULT_TOLERANCE`: distance 0.0025 degrees, length
difference 70 percent, angle 35 degrees. -/
def DEFAULT_TOLERANCE : Tolerance :=
  { DISTANCE := 1 / 400, LENGTH_FRAC := 7 / 10, ANGLE := 35 }

/-- realData.js `EXPECTED_CHANGE.YEARLY_RATE = 0.05`. -/
def EXPECTED_YEARLY_RATE : ℚ := 1 / 20

/-- realData.js `getCoords`: the vertex chain of a geometry (outer ring for a
polygon, the coordinates themselves for a LineString). -/
def getCoords : Geometry → List Point
  | .lineString coords => coords
  | .polygon ring => ring

/-- realData.js `getCentroid`: arithmetic mean of the vertex chain, `null`
(here `none`) when the chain is empty. -/
def getCentroid (g : Geometry) : Option Point :=
  let coords := getCoords g
  if coords.isEmpty then none
  else some ((coords.map Prod.fst).sum / coords.length,
             (coords.map Prod.snd).sum / coords.length)

/-- Squared Euclidean distance; the source compares
`Math.sqrt(distSq) > tol.DISTANCE`, which we compare squared. -/
def distSq (p q : Point) : ℚ := (p.1 - q.1) ^ 2 + (p.2 - q.2) ^ 2

variable (sqrtFn : ℚ → ℚ) (atan2Fn : ℚ → ℚ → ℚ)

/-- Length of one segment: `Math.sqrt(dx*dx + dy*dy)`. -/
def segLen (p q : Point) : ℚ := sqrtFn ((q.1 - p.1) ^ 2 + (q.2 - p.2) ^ 2)

/-- Sum of consecutive-vertex segment lengths of a chain. -/
def chainLen : List Point → ℚ
  | p :: q :: rest => segLen sqrtFn p q + chainLen (q :: rest)
  | _ => 0

/-- realData.js `getApproxLength`: 0 for fewer than 2 vertices, otherwise the
sum of consecutive-vertex Euclidean distances. -/
def getApproxLength (g : Geometry) : ℚ :=
  let coords := getCoords g
  if coords.length < 2 then 0 else chainLen sqrtFn coords

/-- The longest-edge scan of `getBearing` for polygons: walk the edges
carrying `(maxLen, bearing)`, replacing both when an edge is strictly
longer. -/
def longestEdgeBearing : List Point → ℚ × ℚ → ℚ × ℚ
  | p :: q :: rest, acc =>
      let len := segLen sqrtFn p q
      let acc' := if acc.1 < len then (len, atan2Fn (q.2 - p.2) (q.1 - p.1)) else acc
      longestEdgeBearing (q :: rest) acc'
  | _, acc => acc

/-- realData.js `getBearing`: 0 for fewer than 2 vertices; for a polygon the
angle of its longest edge (first edge achieving the maximum); for a
LineString the angle from first to last vertex. -/
def getBearing (g : Geometry) : ℚ :=
  let coords := getCoords g
  if coords.length < 2 then 0
  else
    match g with
    | .polygon _ => (longestEdgeBearing sqrtFn atan2Fn coords (0, 0)).2
    | .lineString _ =>
        let start := coords.getD 0 (0, 0)
        let stop := coords.getD (coords.length - 1) (0, 0)
        atan2Fn (stop.2 - start.2) (stop.1 - start.1)

/-- realData.js `areSimilarFeatures`: three AND-combined rejection tests.
A missing centroid makes the source `distance` return `Infinity`, which
always exceeds the (finite) tolerance, so the pair is rejected. -/
def areSimilarFeatures (f1 f2 : Feature) (tol : Tolerance) : Bool :=
  match getCentroid f1.geometry, getCentroid f2.geometry with
  | some c1, some c2 =>
      -- source: dist > tolerance.DISTANCE (squared form, DISTANCE ≥ 0)
      if tol.DISTANCE ^ 2 < distSq c1 c2 then false
      else
        let len1 := getApproxLength sqrtFn f1.geometry
        let len2 := getApproxLength sqrtFn f2.geometry
        let maxLen := max len1 len2
        let minLen := min len1 len2
        if 0 < maxLen ∧ tol.LENGTH_FRAC < 1 - minLen / maxLen then false
        else
          let angle1 := getBearing sqrtFn atan2Fn f1.geometry
          let angle2 := getBearing sqrtFn atan2Fn f2.geometry
          let d := |angle1 - angle2|
          let angleDiff := if 90 < d then 180 - d else d
          if tol.ANGLE < angleDiff then false else true
  | _, _ => false

/-- Grid cell of a point: `(floor(x*200), floor(y*200))`. -/
def cellOf (p : Point) : ℤ × ℤ := (⌊p.1 * 200⌋, ⌊p.2 * 200⌋)

/-- Search radius in cells: `Math.max(1, Math.ceil(tol.DISTANCE * 200))`. -/
def cellSize (tol : Tolerance) : ℤ := max 1 ⌈tol.DISTANCE * 200⌉

/-- The spatial index of `compareYears`: bucket of a cell key holds, in
ascending order, the indices of the features whose (defined) centroid falls
in that cell.  The source builds this by pushing index `i` onto the bucket of
its cell while iterating `i` upward, which yields exactly this list. -/
def indexBucket (before : List Feature) (key : ℤ × ℤ) : List ℕ :=
  (List.range before.length).filter fun i =>
    match before[i]? with
    | some f =>
        match getCentroid f.geometry with
        | some c => cellOf c = key
        | none => false
    | none => false

/-- Offsets `-r, ..., r` in loop order. -/
def offsets (r : ℤ) : List ℤ :=
  List.map (fun k : ℕ => -r + (k : ℤ)) (List.range (2 * r + 1).toNat)

/-- Candidate enumeration of `runComparisonPass`: the buckets of the
`(2r+1)^2` cells around `c`, outer loop `dx`, inner loop `dy`. -/
def candidatesFor (idx : ℤ × ℤ → List ℕ) (c : ℤ × ℤ) (r : ℤ) : List ℕ :=
  (offsets r).flatMap fun dx => (offsets r).flatMap fun dy => idx (c.1 + dx, c.2 + dy)

/-- Generic greedy pass: walk the position-indexed side in order, at each
position let `choose` pick a not-yet-claimed partner, and claim it.  Returns
the matched pairs `(claimed partner, position)` in processing order. -/
def greedyGo (choose : Feature → List ℕ → Option ℕ) :
    List Feature → ℕ → List ℕ → List (ℕ × ℕ)
  | [], _, _ => []
  | f :: rest, i, claimed =>
      match choose f claimed with
      | none => greedyGo choose rest (i + 1) claimed
      | some j => (j, i) :: greedyGo choose rest (i + 1) (j :: claimed)

/-- The per-feature search of `runComparisonPass`: skip the feature when its
centroid is undefined; otherwise the nested `dx`/`dy`/candidate loops with
their early exits select the first candidate that is unclaimed and similar,
in candidate-enumeration order. -/
def passChoose (before : List Feature) (idx : ℤ × ℤ → List ℕ) (tol : Tolerance)
    (f : Feature) (claimed : List ℕ) : Option ℕ :=
  match getCentroid f.geometry with
  | none => none
  | some c =>
      (candidatesFor idx (cellOf c) (cellSize tol)).find? fun j =>
        !claimed.contains j &&
          (match before[j]? with
           | some g => areSimilarFeatures sqrtFn atan2Fn f g tol
           | none => false)

/-- realData.js `runComparisonPass`: greedy matching of `after` against
`before` through the spatial index.  The source returns the pair of Sets
`matchedBeforeIndices` / `matchedAfterIndices`; since both are filled
simultaneously (one pair per successful match) we return the pair list, of
which the two Sets are the projections. -/
def runComparisonPass (before after : List Feature) (idx : ℤ × ℤ → List ℕ)
    (tol : Tolerance) : List (ℕ × ℕ) :=
  greedyGo (passChoose sqrtFn atan2Fn before idx tol) after 0 []

/-- The Set `matchedBeforeIndices` of the source, as a projection. -/
def matchedBefore (pairs : List (ℕ × ℕ)) : List ℕ := pairs.map Prod.fst

/-- The Set `matchedAfterIndices` of the source, as a projection. -/
def matchedAfter (pairs : List (ℕ × ℕ)) : List ℕ := pairs.map Prod.snd

/-- The statistics `autoCalibrateTolerance` computes from a pass result:
`unchanged = matchedAfterIndices.size`, `added = |after| - unchanged`,
`removed = |before| - matchedBeforeIndices.size`, and
`changeRate = |before| > 0 ? (added + removed) / |before| : 0`.
Set sizes are the lengths of the deduplicated projections. -/
structure PassStats where
  unchanged : ℕ
  added : ℤ
  removed : ℤ
  changeRate : ℚ
deriving DecidableEq

/-- Compute the calibration statistics of a pass result. -/
def statsOf (before after : List Feature) (pairs : List (ℕ × ℕ)) : PassStats :=
  let unchanged := (matchedAfter pairs).dedup.length
  let added : ℤ := (after.length : ℤ) - unchanged
  let removed : ℤ := (before.length : ℤ) - (matchedBefore pairs).dedup.length
  { unchanged := unchanged
    added := added
    removed := removed
    changeRate := if 0 < before.length then ((added + removed : ℤ) : ℚ) / before.length else 0 }

/-- realData.js `autoCalibrateTolerance` step schedule
`[1.0, 1.5, 2.0, 3.0, 4.0, 6.0, 8.0, 10.0]`. -/
def calibrationSteps : List ℚ := [1, 3/2, 2, 3, 4, 6, 8, 10]

/-- The test tolerance of one calibration step: distance scaled by the
multiplier, length fraction capped at 0.95, angle capped at 80 degrees. -/
def stepTolerance (s : ℚ) : Tolerance :=
  { DISTANCE := DEFAULT_TOLERANCE.DISTANCE * s
    LENGTH_FRAC := min (19/20) (DEFAULT_TOLERANCE.LENGTH_FRAC + (s - 1) * (1/20))
    ANGLE := min 80 (DEFAULT_TOLERANCE.ANGLE + (s - 1) * 8) }

/-- What `autoCalibrateTolerance` returns: the chosen tolerance, the pass
result at that tolerance, and its statistics. -/
structure CalibResult where
  tolerance : Tolerance
  pairs : List (ℕ × ℕ)
  stats : PassStats
deriving DecidableEq

/-- The calibration loop.  `best` carries the step of the best (closest to
`target`) result so far together with its pass result and statistics; the
source stores the tolerance, result and `bestDiff` of that step, which are
recomputable from the step, so carrying the step is equivalent.  At each
step the loop updates `best` (strict improvement only, keeping the earliest
step on ties) and returns early with the current step when its change rate
is at most `maxAcceptable`. -/
def calibGo (before after : List Feature) (idx : ℤ × ℤ → List ℕ)
    (maxAcceptable target : ℚ) :
    List ℚ → Option (ℚ × List (ℕ × ℕ) × PassStats) → Option CalibResult
  | [], best =>
      best.map fun b => ⟨stepTolerance b.1, b.2.1, b.2.2⟩
  | s :: rest, best =>
      let tol := stepTolerance s
      let pairs := runComparisonPass sqrtFn atan2Fn before after idx tol
      let st := statsOf before after pairs
      let best' :=
        match best with
        | none => some (s, pairs, st)
        | some b =>
            if |st.changeRate - target| < |b.2.2.changeRate - target| then
              some (s, pairs, st)
            else some b
      if st.changeRate ≤ maxAcceptable then some ⟨tol, pairs, st⟩
      else calibGo before after idx maxAcceptable target rest best'

/-- realData.js `autoCalibrateTolerance`: `targetChangeRate = 0.05 * yearsDiff`,
`maxAcceptableChange = min(targetChangeRate * 2, 0.15)`, then the loop over
the fixed schedule.  The result is `none` only for an empty schedule, which
never happens for the concrete `calibrationSteps`. -/
def autoCalibrateTolerance (before after : List Feature) (idx : ℤ × ℤ → List ℕ)
    (yearsDiff : ℚ) : Option CalibResult :=
  let targetChangeRate := EXPECTED_YEARLY_RATE * yearsDiff
  calibGo sqrtFn atan2Fn before after idx
    (min (targetChangeRate * 2) (3/20)) targetChangeRate calibrationSteps none

/-- Classification of a feature in a comparison result. -/
inductive Status where
  | unchanged
  | added
  | removed
deriving DecidableEq

/-- The tagging loops of `compareYears`: the unchanged after features, then
the added ones, then the removed before features, each in index order. -/
def tagFeatures (before after : List Feature) (pairs : List (ℕ × ℕ)) :
    List (Feature × Status) :=
  (((List.range after.length).filter fun i => (matchedAfter pairs).contains i).map
      fun i => (after.getD i emptyFeature, Status.unchanged)) ++
  (((List.range after.length).filter fun i => !(matchedAfter pairs).contains i).map
      fun i => (after.getD i emptyFeature, Status.added)) ++
  (((List.range before.length).filter fun i => !(matchedBefore pairs).contains i).map
      fun i => (before.getD i emptyFeature, Status.removed))

/-- The computational core of realData.js `compareYears` once both year
collections have been loaded (fetching, caching and the property bags of the
tagged copies are outside the model): build the spatial index over `before`,
auto-calibrate, and tag every feature. -/
def compareYears (before after : List Feature) (yearsDiff : ℚ) :
    Option (List (Feature × Status) × CalibResult) :=
  let beforeIndex := indexBucket before
  (autoCalibrateTolerance sqrtFn atan2Fn before after beforeIndex yearsDiff).map
    fun cr => (tagFeatures before after cr.pairs, cr)

/-- A partial tolerance update: each field either present or absent. -/
structure PartialTolerance where
  DISTANCE : Option ℚ
  LENGTH_FRAC : Option ℚ
  ANGLE : Option ℚ

/-- The JS object spread `{...base, ...p}` for tolerance objects: fields
present in `p` override, absent fields keep the base value. -/
def mergeTolerance (base : Tolerance) (p : PartialTolerance) : Tolerance :=
  { DISTANCE := p.DISTANCE.getD base.DISTANCE
    LENGTH_FRAC := p.LENGTH_FRAC.getD base.LENGTH_FRAC
    ANGLE := p.ANGLE.getD base.ANGLE }

/-- The module-level mutable state of realData.js relevant to tolerance:
the active `TOLERANCE` and the `toleranceVersion` counter. -/
structure ToleranceState where
  TOLERANCE : Tolerance
  toleranceVersion : ℕ

/-- realData.js `setTolerance`: `TOLERANCE = {...DEFAULT_TOLERANCE,
...newTolerance}` and a version bump (the comparison-cache eviction it also
performs is outside the model). -/
def setTolerance (p : PartialTolerance) (st : ToleranceState) : ToleranceState :=
  { TOLERANCE := mergeTolerance DEFAULT_TOLERANCE p
    toleranceVersion := st.toleranceVersion + 1 }

/-- realData.js `getTolerance` (the copy it returns is identity here). -/
def getTolerance (st : ToleranceState) : Tolerance := st.TOLERANCE

/-! referenceData.js: the validator against NYC Planimetrics reference data. -/

namespace RefData

/-- referenceData.js `VALIDATION_TOLERANCE`: distance 0.0001, length
difference 40 percent, angle 20 degrees (the angle field is declared in the
source but, notably, never read by `isMatchingFeature`). -/
def VALIDATION_TOLERANCE : Tolerance :=
  { DISTANCE := 1 / 10000, LENGTH_FRAC := 2 / 5, ANGLE := 20 }

/-- referenceData.js `getCentroid`.  Unlike the realData variant it has no
guard for an empty vertex chain: the source then divides `0 / 0`, producing a
`[NaN, NaN]` centroid (not `null`).  We model that NaN pair as `none`; its
propagation (every numeric comparison against NaN is false) is folded into
`isMatchingFeature` below. -/
def getCentroid (g : Geometry) : Option Point :=
  let coords := getCoords g
  if coords.isEmpty then none
  else some ((coords.map Prod.fst).sum / coords.length,
             (coords.map Prod.snd).sum / coords.length)

/-- referenceData.js `getApproxLength`: LineStrings need at least 2 vertices,
the polygon branch walks the outer ring unconditionally (an empty or
one-vertex ring sums no segments and yields 0). -/
def getApproxLength (g : Geometry) : ℚ :=
  match g with
  | .lineString coords => if 2 ≤ coords.length then chainLen sqrtFn coords else 0
  | .polygon ring => chainLen sqrtFn ring

/-- referenceData.js `isMatchingFeature`: only two criteria.  The distance
gate (squared form, as above); when either centroid is the NaN pair the
comparison `dist > DISTANCE` is false, so the gate does not reject.  The
length-ratio test runs only when both geometries are LineStrings.  There is
no angle test. -/
def isMatchingFeature (detected reference : Feature) : Bool :=
  let distReject : Bool :=
    match getCentroid detected.geometry, getCentroid reference.geometry with
    | some c1, some c2 => decide (VALIDATION_TOLERANCE.DISTANCE ^ 2 < distSq c1 c2)
    | _, _ => false
  if distReject then false
  else
    match detected.geometry, reference.geometry with
    | .lineString _, .lineString _ =>
        let len1 := getApproxLength sqrtFn detected.geometry
        let len2 := getApproxLength sqrtFn reference.geometry
        let maxLen := max len1 len2
        let minLen := min len1 len2
        if 0 < maxLen ∧ VALIDATION_TOLERANCE.LENGTH_FRAC < 1 - minLen / maxLen then
          false
        else true
    | _, _ => true

/-- The matching loops of `validateAgainstReference`: for each detected
feature in order, scan the reference features in index order, skip claimed
ones, claim the first match and stop.  Pairs are `(reference, detected)`
index pairs. -/
def valChoose (reference : List Feature) (d : Feature) (claimed : List ℕ) :
    Option ℕ :=
  (List.range reference.length).find? fun j =>
    !claimed.contains j &&
      (match reference[j]? with
       | some r => isMatchingFeature sqrtFn d r
       | none => false)

/-- The matched `(reference, detected)` index pairs of
`validateAgainstReference`; `matchedDetectedIndices` and
`matchedReferenceIndices` are their projections. -/
def valPairs (detected reference : List Feature) : List (ℕ × ℕ) :=
  greedyGo (valChoose sqrtFn reference) detected 0 []

/-- referenceData.js `ValidationResult` (the `totalDetected` and
`totalReference` echo fields are omitted). -/
structure ValidationResult where
  truePositives : ℕ
  falsePositives : ℤ
  falseNegatives : ℤ
  precision : ℚ
  -- named recall in the source; recall is a command keyword here
  recallScore : ℚ
  f1Score : ℚ
  matchedDetected : List Feature
  unmatchedDetected : List Feature
  unmatchedReference : List Feature
deriving DecidableEq

/-- referenceData.js `validateAgainstReference` for present inputs (the
early return for a missing collection is outside the model, and the
`validation_status` property tags are represented by which list a feature
lands in).  `x || 0` on a division models the source guard: `0/0` is NaN in
JS and `NaN || 0` is 0, so a zero denominator yields 0. -/
def validateAgainstReference (detected reference : List Feature) :
    ValidationResult :=
  let pairs := valPairs sqrtFn detected reference
  let matchedDet := matchedAfter pairs
  let matchedRef := matchedBefore pairs
  let truePositives := matchedDet.dedup.length
  let falsePositives : ℤ := (detected.length : ℤ) - truePositives
  let falseNegatives : ℤ := (reference.length : ℤ) - matchedRef.dedup.length
  let precision : ℚ :=
    if ((truePositives : ℚ) + falsePositives) = 0 then 0
    else (truePositives : ℚ) / ((truePositives : ℚ) + falsePositives)
  let recallScore : ℚ :=
    if ((truePositives : ℚ) + falseNegatives) = 0 then 0
    else (truePositives : ℚ) / ((truePositives : ℚ) + falseNegatives)
  let f1Score : ℚ :=
    if precision + recallScore = 0 then 0
    else 2 * (precision * recallScore) / (precision + recallScore)
  { truePositives := truePositives
    falsePositives := falsePositives
    falseNegatives := falseNegatives
    precision := precision
    recallScore := recallScore
    f1Score := f1Score
    matchedDetected :=
      ((List.range detected.length).filter fun i => matchedDet.contains i).map
        fun i => detected.getD i emptyFeature
    unmatchedDetected :=
      ((List.range detected.length).filter fun i => !matchedDet.contains i).map
        fun i => detected.getD i emptyFeature
    unmatchedReference :=
      ((List.range reference.length).filter fun i => !matchedRef.contains i).map
        fun i => reference.getD i emptyFeature }

end RefData

/-- The matching loop of `validateAgainstReference` as the spec describes
it: walk the detected side in order and, for each feature, claim the first
still-free reference index (scanned in reference index order) accepted by
the similarity predicate, then remove it from the free list.  This is the
spec-side formulation of a sequential greedy matcher over an arbitrary
predicate `sim`, to be compared with `RefData.valPairs`. -/
def specGreedyMatch (sim : Feature → Feature → Bool) (reference : List Feature) :
    List Feature → ℕ → List ℕ → List (ℕ × ℕ)
  | [], _, _ => []
  | d :: ds, i, free =>
      match free.find? (fun j =>
          match reference[j]? with
          | some r => sim d r
          | none => false) with
      | some j => (j, i) :: specGreedyMatch sim reference ds (i + 1) (free.erase j)
      | none => specGreedyMatch sim reference ds (i + 1) free

/-! Concrete instances of the transcendental parameters, exact on every
input they receive in the concrete theorems below. -/

/-- Rational square root stand-in used to instantiate `sqrtFn` in the
concrete theorems below.  Every segment appearing in those theorems has
length 0.001, so the only argument `sqrtFn` is ever applied to there is
`(0.001)^2 = 1/1000000`, on which `sqrtQ` agrees with `Math.sqrt`; the test
is phrased on numerator and denominator so that it evaluates by
reduction. -/
def sqrtQ (x : ℚ) : ℚ := if x.num = 1 ∧ x.den = 1000000 then 1/1000 else 0

/-- Degrees-valued `atan2`, exact on axis-parallel vectors (the only vectors
it receives in the concrete theorems of this file, where it agrees with
`Math.atan2(dy, dx) * 180 / Math.PI`).  Zero tests are phrased on the
numerator (`q = 0` iff `q.num = 0`) so that they evaluate by reduction. -/
def atan2Q (dy dx : ℚ) : ℚ :=
  if dy.num = 0 ∧ 0 < dx then 0
  else if dy.num = 0 ∧ dx < 0 then 180
  else if dx.num = 0 ∧ 0 < dy then 90
  else if dx.num = 0 ∧ dy < 0 then -90
  else 0

/-- A horizontal segment of length 0.001 centered at `(cx, cy)`; its length
computation feeds the perfect square `(0.001)^2` to `sqrtFn` and its bearing
computation feeds the axis-parallel vector `(0, 0.001)` to `atan2Fn`. -/
def hseg (cx cy : ℚ) : Feature :=
  ⟨.lineString [(cx - 1/2000, cy), (cx + 1/2000, cy)]⟩

/-! Generic facts about the greedy pass. -/

/-- A claimed partner never comes from the claimed list (assuming the
chooser respects it, which both instantiations do). -/
theorem greedyGo_fst_not_claimed {choose : Feature → List ℕ → Option ℕ}
    (hch : ∀ f claimed j, choose f claimed = some j → j ∉ claimed) :
    ∀ (afters : List Feature) (i : ℕ) (claimed : List ℕ) (p : ℕ × ℕ),
      p ∈ greedyGo choose afters i claimed → p.1 ∉ claimed := by
  intro afters
  induction afters with
  | nil => intro i claimed p hp; simp [greedyGo] at hp
  | cons f rest ih =>
      intro i claimed p hp
      rcases hc : choose f claimed with _ | j <;> simp only [greedyGo, hc] at hp
      · exact ih _ _ _ hp
      · rcases List.mem_cons.mp hp with hp | hp
        · cases hp; exact hch _ _ _ hc
        · intro hmem
          exact ih _ _ _ hp (List.mem_cons_of_mem _ hmem)

/-- Every matched position is at least the starting position. -/
theorem greedyGo_snd_ge {choose : Feature → List ℕ → Option ℕ} :
    ∀ (afters : List Feature) (i : ℕ) (claimed : List ℕ) (p : ℕ × ℕ),
      p ∈ greedyGo choose afters i claimed → i ≤ p.2 := by
  intro afters
  induction afters with
  | nil => intro i claimed p hp; simp [greedyGo] at hp
  | cons f rest ih =>
      intro i claimed p hp
      rcases hc : choose f claimed with _ | j <;> simp only [greedyGo, hc] at hp
      · exact le_of_lt (lt_of_lt_of_le (Nat.lt_succ_self i) (ih _ _ _ hp))
      · rcases List.mem_cons.mp hp with hp | hp
        · cases hp; exact le_refl _
        · exact le_of_lt (lt_of_lt_of_le (Nat.lt_succ_self i) (ih _ _ _ hp))

/-- Every matched position is below the end of the processed slice. -/
theorem greedyGo_snd_lt {choose : Feature → List ℕ → Option ℕ} :
    ∀ (afters : List Feature) (i : ℕ) (claimed : List ℕ) (p : ℕ × ℕ),
      p ∈ greedyGo choose afters i claimed → p.2 < i + afters.length := by
  intro afters
  induction afters with
  | nil => intro i claimed p hp; simp [greedyGo] at hp
  | cons f rest ih =>
      intro i claimed p hp
      rcases hc : choose f claimed with _ | j <;> simp only [greedyGo, hc] at hp
      · have := ih _ _ _ hp; simp only [List.length_cons]; omega
      · rcases List.mem_cons.mp hp with hp | hp
        · cases hp; simp only [List.length_cons]; omega
        · have := ih _ _ _ hp; simp only [List.length_cons]; omega

/-- The matched position of a pair identifies the processed feature, and the
pair came from a successful `choose` on that feature. -/
theorem greedyGo_snd_choose {choose : Feature → List ℕ → Option ℕ} :
    ∀ (afters : List Feature) (i : ℕ) (claimed : List ℕ) (p : ℕ × ℕ),
      p ∈ greedyGo choose afters i claimed →
        ∃ f c, afters[p.2 - i]? = some f ∧ choose f c = some p.1 := by
  intro afters
  induction afters with
  | nil => intro i claimed p hp; simp [greedyGo] at hp
  | cons f rest ih =>
      intro i claimed p hp
      rcases hc : choose f claimed with _ | j <;> simp only [greedyGo, hc] at hp
      · have hge := greedyGo_snd_ge _ _ _ _ hp
        rcases ih _ _ _ hp with ⟨g, c, hg, hcg⟩
        refine ⟨g, c, ?_, hcg⟩
        have h1 : p.2 - i = (p.2 - (i + 1)) + 1 := by omega
        rw [h1]
        simpa using hg
      · rcases List.mem_cons.mp hp with hp | hp
        · cases hp
          exact ⟨f, claimed, by simp, hc⟩
        · have hge := greedyGo_snd_ge _ _ _ _ hp
          rcases ih _ _ _ hp with ⟨g, c, hg, hcg⟩
          refine ⟨g, c, ?_, hcg⟩
          have h1 : p.2 - i = (p.2 - (i + 1)) + 1 := by omega
          rw [h1]
          simpa using hg

/-- The claimed partners are pairwise distinct. -/
theorem greedyGo_fst_nodup {choose : Feature → List ℕ → Option ℕ}
    (hch : ∀ f claimed j, choose f claimed = some j → j ∉ claimed) :
    ∀ (afters : List Feature) (i : ℕ) (claimed : List ℕ),
      ((greedyGo choose afters i claimed).map Prod.fst).Nodup := by
  intro afters
  induction afters with
  | nil => intro i claimed; simp [greedyGo]
  | cons f rest ih =>
      intro i claimed
      rcases hc : choose f claimed with _ | j <;> simp only [greedyGo, hc]
      · exact ih _ _
      · refine List.nodup_cons.mpr ⟨?_, ih _ _⟩
        intro hmem
        rcases List.mem_map.mp hmem with ⟨p, hp, hfst⟩
        exact greedyGo_fst_not_claimed hch _ _ _ _ hp (hfst ▸ List.mem_cons_self j claimed)

/-- The matched positions are pairwise distinct. -/
theorem greedyGo_snd_nodup {choose : Feature → List ℕ → Option ℕ} :
    ∀ (afters : List Feature) (i : ℕ) (claimed : List ℕ),
      ((greedyGo choose afters i claimed).map Prod.snd).Nodup := by
  intro afters
  induction afters with
  | nil => intro i claimed; simp [greedyGo]
  | cons f rest ih =>
      intro i claimed
      rcases hc : choose f claimed with _ | j <;> simp only [greedyGo, hc]
      · exact ih _ _
      · refine List.nodup_cons.mpr ⟨?_, ih _ _⟩
        intro hmem
        rcases List.mem_map.mp hmem with ⟨p, hp, hsnd⟩
        have := greedyGo_snd_ge _ _ _ _ hp
        omega

/-- What a successful `passChoose` guarantees: the chosen index is unclaimed,
was enumerated among the candidate buckets around the centroid of the
processed feature, and points at a before-feature similar to it. -/
theorem passChoose_eq_some {before : List Feature} {idx : ℤ × ℤ → List ℕ}
    {tol : Tolerance} {f : Feature} {claimed : List ℕ} {j : ℕ}
    (h : passChoose sqrtFn atan2Fn before idx tol f claimed = some j) :
    j ∉ claimed ∧
      (∃ c, getCentroid f.geometry = some c ∧
        j ∈ candidatesFor idx (cellOf c) (cellSize tol)) ∧
      ∃ g, before[j]? = some g ∧ areSimilarFeatures sqrtFn atan2Fn f g tol = true := by
  unfold passChoose at h
  rcases hc : getCentroid f.geometry with _ | c
  · rw [hc] at h; cases h
  · rw [hc] at h
    have hmem := List.mem_of_find?_eq_some h
    have hpred := List.find?_some h
    rw [Bool.and_eq_true] at hpred
    obtain ⟨hcl, hsim⟩ := hpred
    refine ⟨?_, ⟨c, rfl, hmem⟩, ?_⟩
    · simpa using hcl
    · rcases hg : before[j]? with _ | g
      · rw [hg] at hsim; cases hsim
      · rw [hg] at hsim; exact ⟨g, rfl, hsim⟩

/-- `passChoose` respects the claimed list. -/
theorem passChoose_not_claimed {before : List Feature} {idx : ℤ × ℤ → List ℕ}
    {tol : Tolerance} :
    ∀ (f : Feature) (claimed : List ℕ) (j : ℕ),
      passChoose sqrtFn atan2Fn before idx tol f claimed = some j → j ∉ claimed :=
  fun _ _ _ h => (passChoose_eq_some sqrtFn atan2Fn h).1

/-- What a successful `valChoose` guarantees. -/
theorem valChoose_eq_some {reference : List Feature} {d : Feature}
    {claimed : List ℕ} {j : ℕ}
    (h : RefData.valChoose sqrtFn reference d claimed = some j) :
    j ∉ claimed ∧ j < reference.length ∧
      ∃ r, reference[j]? = some r ∧ RefData.isMatchingFeature sqrtFn d r = true := by
  unfold RefData.valChoose at h
  have hmem := List.mem_of_find?_eq_some h
  have hpred := List.find?_some h
  rw [Bool.and_eq_true] at hpred
  obtain ⟨hcl, hsim⟩ := hpred
  refine ⟨?_, List.mem_range.mp hmem, ?_⟩
  · simpa using hcl
  · rcases hg : reference[j]? with _ | r
    · rw [hg] at hsim; cases hsim
    · rw [hg] at hsim; exact ⟨r, rfl, hsim⟩

/-- `valChoose` respects the claimed list. -/
theorem valChoose_not_claimed (sqrtFn : ℚ → ℚ) {reference : List Feature} :
    ∀ (d : Feature) (claimed : List ℕ) (j : ℕ),
      RefData.valChoose sqrtFn reference d claimed = some j → j ∉ claimed :=
  fun _ _ _ h => (valChoose_eq_some sqrtFn h).1

/-- Matched before-indices of a pass are pairwise distinct. -/
theorem runComparisonPass_fst_nodup (before after : List Feature)
    (idx : ℤ × ℤ → List ℕ) (tol : Tolerance) :
    (matchedBefore (runComparisonPass sqrtFn atan2Fn before after idx tol)).Nodup :=
  greedyGo_fst_nodup (passChoose_not_claimed sqrtFn atan2Fn) after 0 []

/-- Matched after-indices of a pass are pairwise distinct. -/
theorem runComparisonPass_snd_nodup (before after : List Feature)
    (idx : ℤ × ℤ → List ℕ) (tol : Tolerance) :
    (matchedAfter (runComparisonPass sqrtFn atan2Fn before after idx tol)).Nodup :=
  greedyGo_snd_nodup after 0 []

/-- Matched after-indices index into the after collection. -/
theorem runComparisonPass_snd_lt {before after : List Feature}
    {idx : ℤ × ℤ → List ℕ} {tol : Tolerance} {p : ℕ × ℕ}
    (hp : p ∈ runComparisonPass sqrtFn atan2Fn before after idx tol) :
    p.2 < after.length := by
  have := greedyGo_snd_lt after 0 [] p hp
  omega

/-- Matched before-indices index into the before collection. -/
theorem runComparisonPass_fst_lt {before after : List Feature}
    {idx : ℤ × ℤ → List ℕ} {tol : Tolerance} {p : ℕ × ℕ}
    (hp : p ∈ runComparisonPass sqrtFn atan2Fn before after idx tol) :
    p.1 < before.length := by
  rcases greedyGo_snd_choose after 0 [] p hp with ⟨f, c, _, hcf⟩
  rcases (passChoose_eq_some sqrtFn atan2Fn hcf).2.2 with ⟨g, hg, _⟩
  by_contra hc
  rw [List.getElem?_eq_none (by omega)] at hg
  cases hg

/-- Counting the members of a duplicate-free index list inside `range n`. -/
theorem length_filter_contains {S : List ℕ} (hnd : S.Nodup) {n : ℕ}
    (hsub : ∀ a ∈ S, a < n) :
    ((List.range n).filter fun i => S.contains i).length = S.length := by
  have h1 : ((List.range n).filter fun i => S.contains i).Nodup :=
    (List.nodup_range n).filter _
  rw [← List.toFinset_card_of_nodup h1, ← List.toFinset_card_of_nodup hnd]
  congr 1
  ext a
  simp only [List.mem_toFinset, List.mem_filter, List.mem_range]
  constructor
  · rintro ⟨_, hc⟩; simpa using hc
  · intro ha; exact ⟨hsub a ha, by simpa using ha⟩

/-- Counting the non-members of a duplicate-free index list inside
`range n`. -/
theorem length_filter_not_contains {S : List ℕ} (hnd : S.Nodup) {n : ℕ}
    (hsub : ∀ a ∈ S, a < n) :
    ((List.range n).filter fun i => !S.contains i).length = n - S.length := by
  have hperm := List.filter_append_perm (fun i => S.contains i) (List.range n)
  have hlen := hperm.length_eq
  simp only [List.length_append, List.length_range] at hlen
  have h1 := length_filter_contains hnd hsub
  omega

/-- A duplicate-free index list inside `range n` has at most `n` members. -/
theorem nodup_length_le {S : List ℕ} (hnd : S.Nodup) {n : ℕ}
    (hsub : ∀ a ∈ S, a < n) : S.length ≤ n := by
  have := length_filter_contains hnd hsub
  have hle := List.length_filter_le (fun i => S.contains i) (List.range n)
  simp only [List.length_range] at hle
  omega

/-- C3: for every run of the Greedy Matcher, on any collections, index and
tolerance, the matched before-indices and matched after-indices are each
duplicate-free (no before index is claimed twice, every after index is
paired with exactly the one before index recorded with it), and the two
claimed sets have the same size: the pair list is a bijection between
them. -/
theorem claim_C3 (sqrtFn : ℚ → ℚ) (atan2Fn : ℚ → ℚ → ℚ)
    (before after : List Feature) (idx : ℤ × ℤ → List ℕ) (tol : Tolerance) :
    (matchedBefore (runComparisonPass sqrtFn atan2Fn before after idx tol)).Nodup ∧
    (matchedAfter (runComparisonPass sqrtFn atan2Fn before after idx tol)).Nodup ∧
    (matchedBefore (runComparisonPass sqrtFn atan2Fn before after idx tol)).length =
      (matchedAfter (runComparisonPass sqrtFn atan2Fn before after idx tol)).length ∧
    (matchedBefore (runComparisonPass sqrtFn atan2Fn before after idx tol)).toFinset.card =
      (matchedAfter (runComparisonPass sqrtFn atan2Fn before after idx tol)).toFinset.card := by
  refine ⟨runComparisonPass_fst_nodup sqrtFn atan2Fn before after idx tol,
    runComparisonPass_snd_nodup sqrtFn atan2Fn before after idx tol, ?_, ?_⟩
  · simp [matchedBefore, matchedAfter]
  · rw [List.toFinset_card_of_nodup
        (runComparisonPass_fst_nodup sqrtFn atan2Fn before after idx tol),
      List.toFinset_card_of_nodup
        (runComparisonPass_snd_nodup sqrtFn atan2Fn before after idx tol)]
    simp [matchedBefore, matchedAfter]

/-- C10: after `setTolerance p`, regardless of the previous state, the
active tolerance is the default tolerance with exactly the fields present
in `p` overridden: every absent field is reset to its default value (the
update merges over the defaults, never over the current tolerance). -/
theorem claim_C10 (p : PartialTolerance) (st : ToleranceState) :
    getTolerance (setTolerance p st) = mergeTolerance DEFAULT_TOLERANCE p ∧
    (getTolerance (setTolerance p st)).DISTANCE =
      p.DISTANCE.getD DEFAULT_TOLERANCE.DISTANCE ∧
    (getTolerance (setTolerance p st)).LENGTH_FRAC =
      p.LENGTH_FRAC.getD DEFAULT_TOLERANCE.LENGTH_FRAC ∧
    (getTolerance (setTolerance p st)).ANGLE =
      p.ANGLE.getD DEFAULT_TOLERANCE.ANGLE :=
  ⟨rfl, rfl, rfl, rfl⟩

/-- The pair list of every calibration outcome is a pass result at one of
the step tolerances. -/
theorem calibGo_pairs {before after : List Feature} {idx : ℤ × ℤ → List ℕ}
    {acc target : ℚ} :
    ∀ (ss : List ℚ) (best : Option (ℚ × List (ℕ × ℕ) × PassStats))
      (cr : CalibResult),
      (∀ b, best = some b →
        ∃ s, b.2.1 = runComparisonPass sqrtFn atan2Fn before after idx (stepTolerance s)) →
      calibGo sqrtFn atan2Fn before after idx acc target ss best = some cr →
      ∃ s, cr.pairs = runComparisonPass sqrtFn atan2Fn before after idx (stepTolerance s) := by
  intro ss
  induction ss with
  | nil =>
      intro best cr hbest h
      rcases best with _ | b
      · simp [calibGo] at h
      · rcases hbest b rfl with ⟨s, hs⟩
        simp only [calibGo, Option.map_some'] at h
        cases h
        exact ⟨s, hs⟩
  | cons s rest ih =>
      intro best cr hbest h
      rcases best with _ | b0 <;> simp only [calibGo] at h <;>
        by_cases hrate :
          (statsOf before after
            (runComparisonPass sqrtFn atan2Fn before after idx (stepTolerance s))).changeRate ≤ acc
      · rw [if_pos hrate] at h
        cases h
        exact ⟨s, rfl⟩
      · rw [if_neg hrate] at h
        refine ih _ cr ?_ h
        intro b hb
        cases hb
        exact ⟨s, rfl⟩
      · rw [if_pos hrate] at h
        cases h
        exact ⟨s, rfl⟩
      · rw [if_neg hrate] at h
        refine ih _ cr ?_ h
        intro b hb
        split at hb
        · cases hb; exact ⟨s, rfl⟩
        · cases hb; exact hbest b0 rfl

/-- C4: for every comparison result (both collections present), the features
tagged added plus those tagged unchanged are exactly as many as the after
collection, and those tagged removed plus those tagged unchanged are exactly
as many as the before collection. -/
theorem claim_C4 (sqrtFn : ℚ → ℚ) (atan2Fn : ℚ → ℚ → ℚ)
    (before after : List Feature) (yearsDiff : ℚ)
    (out : List (Feature × Status) × CalibResult)
    (h : compareYears sqrtFn atan2Fn before after yearsDiff = some out) :
    ((out.1.filter fun t => t.2 = Status.added).length +
      (out.1.filter fun t => t.2 = Status.unchanged).length = after.length) ∧
    ((out.1.filter fun t => t.2 = Status.removed).length +
      (out.1.filter fun t => t.2 = Status.unchanged).length = before.length) := by
  simp only [compareYears] at h
  rcases hcal : autoCalibrateTolerance sqrtFn atan2Fn before after (indexBucket before) yearsDiff
    with _ | cr
  · rw [hcal] at h; cases h
  · rw [hcal] at h
    simp only [Option.map_some'] at h
    cases h
    simp only [autoCalibrateTolerance] at hcal
    have hpairs : ∃ s, cr.pairs =
        runComparisonPass sqrtFn atan2Fn before after (indexBucket before) (stepTolerance s) := by
      refine calibGo_pairs sqrtFn atan2Fn calibrationSteps none cr ?_ hcal
      intro b hb; cases hb
    rcases hpairs with ⟨s, hs⟩
    have hsnd_nodup : (matchedAfter cr.pairs).Nodup := by
      rw [hs]; exact runComparisonPass_snd_nodup sqrtFn atan2Fn _ _ _ _
    have hfst_nodup : (matchedBefore cr.pairs).Nodup := by
      rw [hs]; exact runComparisonPass_fst_nodup sqrtFn atan2Fn _ _ _ _
    have hsnd_lt : ∀ a ∈ matchedAfter cr.pairs, a < after.length := by
      intro a ha
      rcases List.mem_map.mp ha with ⟨p, hp, rfl⟩
      rw [hs] at hp
      exact runComparisonPass_snd_lt sqrtFn atan2Fn hp
    have hfst_lt : ∀ a ∈ matchedBefore cr.pairs, a < before.length := by
      intro a ha
      rcases List.mem_map.mp ha with ⟨p, hp, rfl⟩
      rw [hs] at hp
      exact runComparisonPass_fst_lt sqrtFn atan2Fn hp
    have hAlen : (matchedAfter cr.pairs).length = cr.pairs.length := List.length_map _ _
    have hBlen : (matchedBefore cr.pairs).length = cr.pairs.length := List.length_map _ _
    have hAle := nodup_length_le hsnd_nodup hsnd_lt
    have hBle := nodup_length_le hfst_nodup hfst_lt
    have hcu := length_filter_contains hsnd_nodup hsnd_lt
    have hcu2 := length_filter_not_contains hsnd_nodup hsnd_lt
    have hcb := length_filter_not_contains hfst_nodup hfst_lt
    rw [hAlen] at hcu hcu2 hAle
    rw [hBlen] at hcb hBle
    constructor
    · simp only [tagFeatures]
      simp [List.filter_append, List.filter_map, Function.comp_def] at hcu hcu2 ⊢
      omega
    · simp only [tagFeatures]
      simp [List.filter_append, List.filter_map, Function.comp_def] at hcu hcb ⊢
      omega

/-- Bounds of a confusion ratio `t / (t + (n - t))` with the zero-denominator
guard of the source. -/
theorem confusion_ratio_bounds {t n : ℕ} (hle : t ≤ n) :
    0 ≤ (if ((t : ℚ) + (((n : ℤ) - (t : ℤ) : ℤ) : ℚ)) = 0 then (0 : ℚ)
         else (t : ℚ) / ((t : ℚ) + (((n : ℤ) - (t : ℤ) : ℤ) : ℚ))) ∧
    (if ((t : ℚ) + (((n : ℤ) - (t : ℤ) : ℤ) : ℚ)) = 0 then (0 : ℚ)
     else (t : ℚ) / ((t : ℚ) + (((n : ℤ) - (t : ℤ) : ℤ) : ℚ))) ≤ 1 := by
  have hsum : ((t : ℚ) + (((n : ℤ) - (t : ℤ) : ℤ) : ℚ)) = (n : ℚ) := by
    push_cast; ring
  rw [hsum]
  split
  · exact ⟨le_rfl, zero_le_one⟩
  · rename_i hn
    have hpos : (0 : ℚ) < n :=
      lt_of_le_of_ne (by positivity) (Ne.symm hn)
    constructor
    · positivity
    · rw [div_le_one hpos]
      exact_mod_cast hle

/-- Bounds of the harmonic-mean formula with the zero-denominator guard. -/
theorem f1_formula_bounds {p r : ℚ} (hp0 : 0 ≤ p) (hp1 : p ≤ 1) (hr0 : 0 ≤ r)
    (hr1 : r ≤ 1) :
    0 ≤ (if p + r = 0 then (0 : ℚ) else 2 * (p * r) / (p + r)) ∧
    (if p + r = 0 then (0 : ℚ) else 2 * (p * r) / (p + r)) ≤ 1 := by
  split
  · exact ⟨le_rfl, zero_le_one⟩
  · rename_i hne
    have hpos : 0 < p + r := lt_of_le_of_ne (by linarith) (Ne.symm hne)
    constructor
    · positivity
    · rw [div_le_one hpos]
      nlinarith

/-- The harmonic-mean formula vanishes when either input vanishes. -/
theorem f1_formula_zero {p r : ℚ} (h : p = 0 ∨ r = 0) :
    (if p + r = 0 then (0 : ℚ) else 2 * (p * r) / (p + r)) = 0 := by
  split
  · rfl
  · rcases h with h | h <;> simp [h]

/-- Matched detected indices of the validator are pairwise distinct. -/
theorem valPairs_snd_nodup (detected reference : List Feature) :
    (matchedAfter (RefData.valPairs sqrtFn detected reference)).Nodup :=
  greedyGo_snd_nodup detected 0 []

/-- Matched reference indices of the validator are pairwise distinct. -/
theorem valPairs_fst_nodup (detected reference : List Feature) :
    (matchedBefore (RefData.valPairs sqrtFn detected reference)).Nodup :=
  greedyGo_fst_nodup (valChoose_not_claimed sqrtFn) detected 0 []

/-- Matched detected indices index into the detected collection. -/
theorem valPairs_snd_lt {detected reference : List Feature} {p : ℕ × ℕ}
    (hp : p ∈ RefData.valPairs sqrtFn detected reference) : p.2 < detected.length := by
  have := greedyGo_snd_lt detected 0 [] p hp
  omega

/-- Matched reference indices index into the reference collection. -/
theorem valPairs_fst_lt {detected reference : List Feature} {p : ℕ × ℕ}
    (hp : p ∈ RefData.valPairs sqrtFn detected reference) : p.1 < reference.length := by
  rcases greedyGo_snd_choose detected 0 [] p hp with ⟨f, c, _, hcf⟩
  exact (valChoose_eq_some sqrtFn hcf).2.1

/-- C5: for every pair of input collections, the validation result has
`truePositives` equal to the number of matched detected features,
`falsePositives = |detected| - truePositives`, `falseNegatives =
|reference| - (matched reference count)`, the three ratios given by their
guarded formulas (0 on a zero denominator, never a division error), all
three ratios in `[0, 1]`, and `f1 = 0` whenever precision or recall is 0. -/
theorem claim_C5 (sqrtFn : ℚ → ℚ) (detected reference : List Feature)
    (v : RefData.ValidationResult)
    (hv : RefData.validateAgainstReference sqrtFn detected reference = v) :
    v.truePositives = v.matchedDetected.length ∧
    v.falsePositives = (detected.length : ℤ) - (v.truePositives : ℤ) ∧
    v.falseNegatives = (reference.length : ℤ) -
      ((matchedBefore (RefData.valPairs sqrtFn detected reference)).dedup.length : ℤ) ∧
    v.precision = (if ((v.truePositives : ℚ) + (v.falsePositives : ℚ)) = 0 then 0
      else (v.truePositives : ℚ) / ((v.truePositives : ℚ) + (v.falsePositives : ℚ))) ∧
    v.recallScore = (if ((v.truePositives : ℚ) + (v.falseNegatives : ℚ)) = 0 then 0
      else (v.truePositives : ℚ) / ((v.truePositives : ℚ) + (v.falseNegatives : ℚ))) ∧
    v.f1Score = (if v.precision + v.recallScore = 0 then 0
      else 2 * (v.precision * v.recallScore) / (v.precision + v.recallScore)) ∧
    (0 ≤ v.precision ∧ v.precision ≤ 1) ∧
    (0 ≤ v.recallScore ∧ v.recallScore ≤ 1) ∧
    (0 ≤ v.f1Score ∧ v.f1Score ≤ 1) ∧
    ((v.precision = 0 ∨ v.recallScore = 0) → v.f1Score = 0) := by
  have hsnd_nodup := valPairs_snd_nodup sqrtFn detected reference
  have hfst_nodup := valPairs_fst_nodup sqrtFn detected reference
  have hsnd_lt : ∀ a ∈ matchedAfter (RefData.valPairs sqrtFn detected reference),
      a < detected.length := by
    intro a ha
    rcases List.mem_map.mp ha with ⟨p, hp, rfl⟩
    exact valPairs_snd_lt sqrtFn hp
  have hfst_lt : ∀ a ∈ matchedBefore (RefData.valPairs sqrtFn detected reference),
      a < reference.length := by
    intro a ha
    rcases List.mem_map.mp ha with ⟨p, hp, rfl⟩
    exact valPairs_fst_lt sqrtFn hp
  have hdedupA := List.Nodup.dedup hsnd_nodup
  have hdedupB := List.Nodup.dedup hfst_nodup
  have htle_d : (matchedAfter (RefData.valPairs sqrtFn detected reference)).dedup.length ≤
      detected.length := by
    rw [hdedupA]; exact nodup_length_le hsnd_nodup hsnd_lt
  have htle_r : (matchedAfter (RefData.valPairs sqrtFn detected reference)).dedup.length ≤
      reference.length := by
    rw [hdedupA]
    have h1 : (matchedAfter (RefData.valPairs sqrtFn detected reference)).length =
        (RefData.valPairs sqrtFn detected reference).length := List.length_map _ _
    have h2 : (matchedBefore (RefData.valPairs sqrtFn detected reference)).length =
        (RefData.valPairs sqrtFn detected reference).length := List.length_map _ _
    have := nodup_length_le hfst_nodup hfst_lt
    omega
  have hBeqA : (matchedBefore (RefData.valPairs sqrtFn detected reference)).dedup.length =
      (matchedAfter (RefData.valPairs sqrtFn detected reference)).dedup.length := by
    rw [hdedupA, hdedupB]
    simp [matchedBefore, matchedAfter]
  have hfilter : ((List.range detected.length).filter fun i =>
      (matchedAfter (RefData.valPairs sqrtFn detected reference)).contains i).length =
      (matchedAfter (RefData.valPairs sqrtFn detected reference)).length :=
    length_filter_contains hsnd_nodup hsnd_lt
  subst hv
  simp only [RefData.validateAgainstReference]
  refine ⟨?_, trivial, trivial, trivial, trivial, trivial, ?_, ?_, ?_, ?_⟩
  · simp only [List.length_map, hfilter, hdedupA]
  · exact confusion_ratio_bounds htle_d
  · have h := confusion_ratio_bounds htle_r
    rw [hBeqA]
    exact h
  · have h1 := confusion_ratio_bounds htle_d
    have h2 := confusion_ratio_bounds htle_r
    rw [hBeqA]
    exact f1_formula_bounds h1.1 h1.2 h2.1 h2.2
  · intro h
    rw [hBeqA] at h ⊢
    exact f1_formula_zero h

/-- A squared-distance bound gives per-coordinate bounds. -/
theorem distSq_le_coord {p q : Point} {D : ℚ} (hD : 0 ≤ D)
    (h : distSq p q ≤ D ^ 2) : |p.1 - q.1| ≤ D ∧ |p.2 - q.2| ≤ D := by
  unfold distSq at h
  constructor <;> rw [abs_le] <;> constructor <;>
    nlinarith [sq_nonneg (p.1 - q.1), sq_nonneg (p.2 - q.2)]

/-- Coordinates within `D` of each other land in grid cells at most
`max 1 ⌈D * 200⌉` apart. -/
theorem floor_cell_close {x y D : ℚ} (h : |x - y| ≤ D) :
    |⌊x * 200⌋ - ⌊y * 200⌋| ≤ max 1 ⌈D * 200⌉ := by
  have h200 : |x * 200 - y * 200| ≤ D * 200 := by
    have h1 : |(x - y) * 200| ≤ D * 200 := by
      rw [abs_mul, abs_of_nonneg (by norm_num : (0 : ℚ) ≤ 200)]
      exact mul_le_mul_of_nonneg_right h (by norm_num)
    calc |x * 200 - y * 200| = |(x - y) * 200| := by ring_nf
      _ ≤ D * 200 := h1
  have habs := abs_le.mp h200
  have h1 : ⌊x * 200⌋ ≤ ⌊y * 200⌋ + ⌈D * 200⌉ := by
    calc ⌊x * 200⌋ ≤ ⌊y * 200 + (⌈D * 200⌉ : ℚ)⌋ :=
          Int.floor_le_floor (by linarith [Int.le_ceil (D * 200)])
      _ = ⌊y * 200⌋ + ⌈D * 200⌉ := Int.floor_add_int _ _
  have h2 : ⌊y * 200⌋ ≤ ⌊x * 200⌋ + ⌈D * 200⌉ := by
    calc ⌊y * 200⌋ ≤ ⌊x * 200 + (⌈D * 200⌉ : ℚ)⌋ :=
          Int.floor_le_floor (by linarith [Int.le_ceil (D * 200)])
      _ = ⌊x * 200⌋ + ⌈D * 200⌉ := Int.floor_add_int _ _
  have hc : ⌈D * 200⌉ ≤ max 1 ⌈D * 200⌉ := le_max_right _ _
  rw [abs_le]
  omega

/-- Offset membership in the loop range. -/
theorem mem_offsets {r dx : ℤ} (h1 : -r ≤ dx) (h2 : dx ≤ r) : dx ∈ offsets r := by
  have hdx : dx = -r + ((dx + r).toNat : ℤ) := by omega
  rw [hdx]
  unfold offsets
  exact List.mem_map_of_mem _
    (List.mem_range.mpr (show (dx + r).toNat < (2 * r + 1).toNat by omega))

/-- A feature with a defined centroid is in the bucket of its cell. -/
theorem mem_indexBucket {before : List Feature} {j : ℕ} {f : Feature} {c : Point}
    (hj : before[j]? = some f) (hc : getCentroid f.geometry = some c) :
    j ∈ indexBucket before (cellOf c) := by
  unfold indexBucket
  refine List.mem_filter.mpr ⟨List.mem_range.mpr ?_, ?_⟩
  · by_contra hlt
    rw [List.getElem?_eq_none (by omega)] at hj
    cases hj
  · simp [hj, hc]

/-- C9: the grid query of the Matcher is complete. Every indexed
before-feature whose centroid lies within `tol.DISTANCE` of a query centroid
appears among the candidates enumerated over the `(2r+1)^2` cells of radius
`r = max 1 ⌈DISTANCE * 200⌉` around the query cell (no correctness loss
relative to a full scan of the distance-eligible features). -/
theorem claim_C9 (before : List Feature) (tol : Tolerance)
    (hD : 0 ≤ tol.DISTANCE) (q : Point) (j : ℕ) (f : Feature) (c : Point)
    (hj : before[j]? = some f) (hc : getCentroid f.geometry = some c)
    (hdist : distSq c q ≤ tol.DISTANCE ^ 2) :
    j ∈ candidatesFor (indexBucket before) (cellOf q) (cellSize tol) := by
  rcases distSq_le_coord hD hdist with ⟨hx, hy⟩
  have hcx := floor_cell_close hx
  have hcy := floor_cell_close hy
  rw [abs_le] at hcx hcy
  unfold candidatesFor
  refine List.mem_flatMap.mpr ⟨⌊c.1 * 200⌋ - ⌊q.1 * 200⌋,
    mem_offsets (by simp only [cellSize]; omega) (by simp only [cellSize]; omega),
    ?_⟩
  refine List.mem_flatMap.mpr ⟨⌊c.2 * 200⌋ - ⌊q.2 * 200⌋,
    mem_offsets (by simp only [cellSize]; omega) (by simp only [cellSize]; omega),
    ?_⟩
  have hcell : ((cellOf q).1 + (⌊c.1 * 200⌋ - ⌊q.1 * 200⌋),
      (cellOf q).2 + (⌊c.2 * 200⌋ - ⌊q.2 * 200⌋)) = cellOf c := by
    simp only [cellOf, Prod.mk.injEq]
    constructor <;> omega
  rw [hcell]
  exact mem_indexBucket hj hc

set_option maxRecDepth 4000

/-! Concrete fixtures for the counterexamples.  All features are horizontal
or vertical segments of length 0.001, so `sqrtQ` and `atan2Q` agree with the
real `Math.sqrt` / `Math.atan2` on every evaluation below. -/

/-- Looser tolerance used against the default one: distance doubled (0.005),
other fields unchanged. -/
def looseTolerance : Tolerance := { DISTANCE := 1/200, LENGTH_FRAC := 7/10, ANGLE := 35 }

/-- One before-feature at the origin. -/
def cexBefore1 : List Feature := [hseg 0 0]

/-- Two after-features: the first 0.004 away (matches only loosely), the
second 0.001 away (matches already at the default tolerance). -/
def cexAfter1 : List Feature := [hseg (1/250) 0, hseg (1/1000) 0]

/-- Two before-features for the change-rate reversal: both match their
partner at the default tolerance, but at double distance the first after-
feature steals the second before-feature. -/
def cexBefore2 : List Feature := [hseg (1/1000) (3/1000), hseg (1/1000) (-1/2500)]

/-- The two after-features of the change-rate reversal. -/
def cexAfter2 : List Feature := [hseg (1/1000) (9/2000), hseg (1/1000) (-29/10000)]

/-- Three mutually entangled features: 1 is similar to 0 and to 2 at the
default tolerance, 0 and 2 are not similar to each other. -/
def cexSelfCollection : List Feature :=
  [hseg (1/200) (1/2000), hseg (3/625) (1/400), hseg (47/10000) (9/2000)]

/-- A detected horizontal segment (bearing 0). -/
def cexDetected0 : Feature := ⟨.lineString [(-1/2000, 0), (1/2000, 0)]⟩

/-- A reference vertical segment (bearing 90) with the same centroid and
length. -/
def cexReference0 : Feature := ⟨.lineString [(0, -1/2000), (0, 1/2000)]⟩

/-- A degenerate single-vertex LineString. -/
def svFeature : Feature := ⟨.lineString [(0, 0)]⟩

/-- C1 counterexample: the Greedy Matcher is not monotone in the tolerance.
With one before-feature and two after-features, the default tolerance
matches the pair `(0, 1)`; the component-wise looser `looseTolerance` lets
after-feature 0 claim the before-feature first, so the matched pair set
`[(0, 0)]` is not a superset of `[(0, 1)]`.  Moreover, on the second fixture
the calibration schedule step 1.0 yields change rate 0 while the later step
2.0 yields change rate 1, so the change rate is not non-increasing in the
schedule index either. -/
theorem claim_C1_counterexample :
    (DEFAULT_TOLERANCE.DISTANCE ≤ looseTolerance.DISTANCE ∧
      DEFAULT_TOLERANCE.LENGTH_FRAC ≤ looseTolerance.LENGTH_FRAC ∧
      DEFAULT_TOLERANCE.ANGLE ≤ looseTolerance.ANGLE) ∧
    runComparisonPass sqrtQ atan2Q cexBefore1 cexAfter1 (indexBucket cexBefore1)
      DEFAULT_TOLERANCE = [(0, 1)] ∧
    runComparisonPass sqrtQ atan2Q cexBefore1 cexAfter1 (indexBucket cexBefore1)
      looseTolerance = [(0, 0)] ∧
    (0, 1) ∉ runComparisonPass sqrtQ atan2Q cexBefore1 cexAfter1 (indexBucket cexBefore1)
      looseTolerance ∧
    calibrationSteps = [1, 3/2, 2, 3, 4, 6, 8, 10] ∧
    (statsOf cexBefore2 cexAfter2 (runComparisonPass sqrtQ atan2Q cexBefore2 cexAfter2
      (indexBucket cexBefore2) (stepTolerance 1))).changeRate = 0 ∧
    (statsOf cexBefore2 cexAfter2 (runComparisonPass sqrtQ atan2Q cexBefore2 cexAfter2
      (indexBucket cexBefore2) (stepTolerance 2))).changeRate = 1 := by
  have h2 : runComparisonPass sqrtQ atan2Q cexBefore1 cexAfter1 (indexBucket cexBefore1)
      looseTolerance = [(0, 0)] := by with_unfolding_all rfl
  refine ⟨⟨of_decide_eq_true (by with_unfolding_all rfl),
      of_decide_eq_true (by with_unfolding_all rfl),
      of_decide_eq_true (by with_unfolding_all rfl)⟩,
    by with_unfolding_all rfl, h2, ?_, rfl,
    by with_unfolding_all rfl, by with_unfolding_all rfl⟩
  rw [h2]
  decide

/-- C2 counterexample: comparing a 3-feature collection against itself at
the default tolerance leaves a feature unmatched: greedy claiming lets
after-feature 0 take before-feature 1 and after-feature 1 take
before-feature 2, stranding after-feature 2, so `unchanged = 2 ≠ 3` and
`added = removed = 1 ≠ 0`. -/
theorem claim_C2_counterexample :
    cexSelfCollection.length = 3 ∧
    runComparisonPass sqrtQ atan2Q cexSelfCollection cexSelfCollection
      (indexBucket cexSelfCollection) DEFAULT_TOLERANCE = [(1, 0), (2, 1)] ∧
    (statsOf cexSelfCollection cexSelfCollection (runComparisonPass sqrtQ atan2Q
      cexSelfCollection cexSelfCollection (indexBucket cexSelfCollection)
      DEFAULT_TOLERANCE)).unchanged = 2 ∧
    (statsOf cexSelfCollection cexSelfCollection (runComparisonPass sqrtQ atan2Q
      cexSelfCollection cexSelfCollection (indexBucket cexSelfCollection)
      DEFAULT_TOLERANCE)).added = 1 ∧
    (statsOf cexSelfCollection cexSelfCollection (runComparisonPass sqrtQ atan2Q
      cexSelfCollection cexSelfCollection (indexBucket cexSelfCollection)
      DEFAULT_TOLERANCE)).removed = 1 :=
  ⟨rfl, by with_unfolding_all rfl, by with_unfolding_all rfl,
   by with_unfolding_all rfl, by with_unfolding_all rfl⟩

/-- C8 counterexample: a single-vertex LineString has a perfectly defined
centroid (its vertex), is put into the spatial index, and is matched by the
Matcher (here to an identical degenerate feature, whose zero length passes
the `maxLen > 0` guard and whose bearing defaults to 0): it is neither
excluded from the index nor unmatchable. -/
theorem claim_C8_counterexample :
    getCentroid svFeature.geometry = some (0, 0) ∧
    indexBucket [svFeature] (0, 0) = [0] ∧
    runComparisonPass sqrtQ atan2Q [svFeature] [svFeature] (indexBucket [svFeature])
      DEFAULT_TOLERANCE = [(0, 0)] ∧
    getApproxLength sqrtQ svFeature.geometry = 0 ∧
    getBearing sqrtQ atan2Q svFeature.geometry = 0 :=
  ⟨by with_unfolding_all rfl, by with_unfolding_all rfl,
   by with_unfolding_all rfl, by with_unfolding_all rfl, by with_unfolding_all rfl⟩

/-- C7 counterexample: the validator accepts a pair the three-criterion
matcher rejects.  A detected horizontal segment and a reference vertical
segment share centroid and length; `isMatchingFeature` accepts them (it has
no angle criterion), so validation reports one true positive, while the
Greedy Matcher with `areSimilarFeatures` at the validation tolerance rejects
them (folded angle difference 90 exceeds 20 degrees) and matches nothing. -/
theorem claim_C7_counterexample :
    RefData.isMatchingFeature sqrtQ cexDetected0 cexReference0 = true ∧
    RefData.valPairs sqrtQ [cexDetected0] [cexReference0] = [(0, 0)] ∧
    (RefData.validateAgainstReference sqrtQ [cexDetected0] [cexReference0]).truePositives
      = 1 ∧
    areSimilarFeatures sqrtQ atan2Q cexDetected0 cexReference0
      RefData.VALIDATION_TOLERANCE = false ∧
    runComparisonPass sqrtQ atan2Q [cexReference0] [cexDetected0]
      (indexBucket [cexReference0]) RefData.VALIDATION_TOLERANCE = [] :=
  ⟨by with_unfolding_all rfl, by with_unfolding_all rfl,
   by with_unfolding_all rfl, by with_unfolding_all rfl, by with_unfolding_all rfl⟩

/-- C6 counterexample: with an empty before collection and one after
feature, the calibrator returns at the first step with `changeRate = 0`
(the source computes 0 whenever `|before| = 0`), although
`(added + removed) / max(1, |before|) = (1 + 0) / 1 = 1`: the claimed
change-rate formula does not match the code at `|before| = 0`. -/
theorem claim_C6_counterexample :
    autoCalibrateTolerance sqrtQ atan2Q [] [hseg 0 0] (indexBucket []) 1 =
      some { tolerance := stepTolerance 1, pairs := [],
             stats := { unchanged := 0, added := 1, removed := 0, changeRate := 0 } } ∧
    ((((1 : ℤ) + (0 : ℤ) : ℤ) : ℚ) / (max 1 ([] : List Feature).length : ℚ)) = 1 ∧
    (0 : ℚ) ≠ 1 :=
  ⟨by with_unfolding_all rfl, by with_unfolding_all rfl, by norm_num⟩

/-- C1 (amended): what is monotone in the tolerance is the similarity
predicate, not the greedy matcher.  For tolerances that are component-wise
ordered (and nonnegative, as the data-model invariant requires), every pair
accepted by `areSimilarFeatures` under the tighter tolerance is accepted
under the looser one.  The matched pair set of `runComparisonPass` itself is
not necessarily a superset, and the calibration change rate is not
necessarily non-increasing along the schedule; both are refuted by the
counterexample. -/
theorem claim_C1 (sqrtFn : ℚ → ℚ) (atan2Fn : ℚ → ℚ → ℚ) (f1 f2 : Feature)
    (t1 t2 : Tolerance) (hD0 : 0 ≤ t1.DISTANCE)
    (hD : t1.DISTANCE ≤ t2.DISTANCE) (hL : t1.LENGTH_FRAC ≤ t2.LENGTH_FRAC)
    (hA : t1.ANGLE ≤ t2.ANGLE)
    (h : areSimilarFeatures sqrtFn atan2Fn f1 f2 t1 = true) :
    areSimilarFeatures sqrtFn atan2Fn f1 f2 t2 = true := by
  rcases hc1 : getCentroid f1.geometry with _ | c1 <;>
    rcases hc2 : getCentroid f2.geometry with _ | c2 <;>
      simp only [areSimilarFeatures, hc1, hc2] at h ⊢
  any_goals exact h
  by_cases hd1 : t1.DISTANCE ^ 2 < distSq c1 c2
  · rw [if_pos hd1] at h; cases h
  · rw [if_neg hd1] at h
    have hd2 : ¬ t2.DISTANCE ^ 2 < distSq c1 c2 := by
      intro hlt
      exact hd1 (lt_of_le_of_lt (by nlinarith) hlt)
    rw [if_neg hd2]
    by_cases hl1 : 0 < max (getApproxLength sqrtFn f1.geometry)
          (getApproxLength sqrtFn f2.geometry) ∧
        t1.LENGTH_FRAC < 1 - min (getApproxLength sqrtFn f1.geometry)
          (getApproxLength sqrtFn f2.geometry) / max (getApproxLength sqrtFn f1.geometry)
          (getApproxLength sqrtFn f2.geometry)
    · rw [if_pos hl1] at h; cases h
    · rw [if_neg hl1] at h
      have hl2 : ¬ (0 < max (getApproxLength sqrtFn f1.geometry)
            (getApproxLength sqrtFn f2.geometry) ∧
          t2.LENGTH_FRAC < 1 - min (getApproxLength sqrtFn f1.geometry)
            (getApproxLength sqrtFn f2.geometry) / max (getApproxLength sqrtFn f1.geometry)
            (getApproxLength sqrtFn f2.geometry)) := by
        rintro ⟨hpos, hlt⟩
        exact hl1 ⟨hpos, lt_of_le_of_lt hL hlt⟩
      rw [if_neg hl2]
      by_cases ha1 : t1.ANGLE <
          (if 90 < |getBearing sqrtFn atan2Fn f1.geometry -
              getBearing sqrtFn atan2Fn f2.geometry| then
            180 - |getBearing sqrtFn atan2Fn f1.geometry -
              getBearing sqrtFn atan2Fn f2.geometry|
          else |getBearing sqrtFn atan2Fn f1.geometry -
              getBearing sqrtFn atan2Fn f2.geometry|)
      · rw [if_pos ha1] at h; cases h
      · rw [if_neg ha1] at h
        rw [if_neg fun hlt => ha1 (lt_of_le_of_lt hA hlt)]

/-- Witness for the amended C1a: two identical horizontal segments are
similar at the default tolerance, hence also at the looser one. -/
theorem claim_C1_witness :
    0 ≤ DEFAULT_TOLERANCE.DISTANCE ∧
    DEFAULT_TOLERANCE.DISTANCE ≤ looseTolerance.DISTANCE ∧
    DEFAULT_TOLERANCE.LENGTH_FRAC ≤ looseTolerance.LENGTH_FRAC ∧
    DEFAULT_TOLERANCE.ANGLE ≤ looseTolerance.ANGLE ∧
    areSimilarFeatures sqrtQ atan2Q (hseg 0 0) (hseg 0 0) DEFAULT_TOLERANCE = true ∧
    areSimilarFeatures sqrtQ atan2Q (hseg 0 0) (hseg 0 0) looseTolerance = true :=
  ⟨of_decide_eq_true (by with_unfolding_all rfl),
   of_decide_eq_true (by with_unfolding_all rfl),
   of_decide_eq_true (by with_unfolding_all rfl),
   of_decide_eq_true (by with_unfolding_all rfl),
   by with_unfolding_all rfl,
   claim_C1 sqrtQ atan2Q (hseg 0 0) (hseg 0 0) DEFAULT_TOLERANCE looseTolerance
     (of_decide_eq_true (by with_unfolding_all rfl))
     (of_decide_eq_true (by with_unfolding_all rfl))
     (of_decide_eq_true (by with_unfolding_all rfl))
     (of_decide_eq_true (by with_unfolding_all rfl))
     (by with_unfolding_all rfl)⟩

/-- C8 (amended): the degenerate geometries that are excluded and never
matched are exactly those with an empty vertex chain.  For them the centroid
is the null sentinel, length and bearing default to 0, the feature never
enters any index bucket, and no run of the Matcher ever claims it, on either
side.  (A single-vertex line, by contrast, has a defined centroid and can be
matched, as the counterexample shows.) -/
theorem claim_C8 (sqrtFn : ℚ → ℚ) (atan2Fn : ℚ → ℚ → ℚ) (g : Geometry)
    (hg : getCoords g = []) :
    getCentroid g = none ∧
    getApproxLength sqrtFn g = 0 ∧
    getBearing sqrtFn atan2Fn g = 0 ∧
    (∀ (before : List Feature) (j : ℕ) (f : Feature) (key : ℤ × ℤ),
      before[j]? = some f → f.geometry = g → j ∉ indexBucket before key) ∧
    (∀ (before after : List Feature) (idx : ℤ × ℤ → List ℕ) (tol : Tolerance)
        (i : ℕ) (f : Feature), after[i]? = some f → f.geometry = g →
      i ∉ matchedAfter (runComparisonPass sqrtFn atan2Fn before after idx tol)) ∧
    (∀ (before after : List Feature) (tol : Tolerance) (j : ℕ) (f : Feature),
      before[j]? = some f → f.geometry = g →
      j ∉ matchedBefore (runComparisonPass sqrtFn atan2Fn before after
        (indexBucket before) tol)) := by
  have hcent : getCentroid g = none := by simp [getCentroid, hg]
  refine ⟨hcent, by simp [getApproxLength, hg], by simp [getBearing, hg], ?_, ?_, ?_⟩
  · intro before j f key hj hfg hmem
    have hpred := (List.mem_filter.mp hmem).2
    rw [hj] at hpred
    simp only [hfg, hcent] at hpred
    cases hpred
  · intro before after idx tol i f hi hfg hmem
    rcases List.mem_map.mp hmem with ⟨p, hp, hsnd⟩
    rcases greedyGo_snd_choose after 0 [] p hp with ⟨f2, c, hf2, hcf⟩
    rcases (passChoose_eq_some sqrtFn atan2Fn hcf).2.1 with ⟨c2, hc2, _⟩
    rw [Nat.sub_zero] at hf2
    rw [hsnd, hi] at hf2
    cases hf2
    rw [hfg, hcent] at hc2
    cases hc2
  · intro before after tol j f hj hfg hmem
    rcases List.mem_map.mp hmem with ⟨p, hp, hfst⟩
    rcases greedyGo_snd_choose after 0 [] p hp with ⟨f2, c, hf2, hcf⟩
    rcases (passChoose_eq_some sqrtFn atan2Fn hcf).2.1 with ⟨c2, hc2, hcand⟩
    rcases List.mem_flatMap.mp hcand with ⟨dx, _, hcand2⟩
    rcases List.mem_flatMap.mp hcand2 with ⟨dy, _, hbucket⟩
    rw [hfst] at hbucket
    have hpred := (List.mem_filter.mp hbucket).2
    rw [hj] at hpred
    simp only [hfg, hcent] at hpred
    cases hpred

/-- Witness for the amended C8 at the empty LineString. -/
theorem claim_C8_witness :
    getCentroid (Geometry.lineString []) = none ∧
    getApproxLength sqrtQ (Geometry.lineString []) = 0 ∧
    getBearing sqrtQ atan2Q (Geometry.lineString []) = 0 ∧
    0 ∉ matchedAfter (runComparisonPass sqrtQ atan2Q [hseg 0 0] [emptyFeature]
      (indexBucket [hseg 0 0]) DEFAULT_TOLERANCE) :=
  ⟨(claim_C8 sqrtQ atan2Q (Geometry.lineString []) rfl).1,
   (claim_C8 sqrtQ atan2Q (Geometry.lineString []) rfl).2.1,
   (claim_C8 sqrtQ atan2Q (Geometry.lineString []) rfl).2.2.1,
   (claim_C8 sqrtQ atan2Q (Geometry.lineString []) rfl).2.2.2.2.1
     [hseg 0 0] [emptyFeature] (indexBucket [hseg 0 0]) DEFAULT_TOLERANCE 0
     emptyFeature rfl rfl⟩

/-- A `find?` whose predicate holds exactly at one listed element returns
that element. -/
theorem find?_eq_some_of_unique {p : ℕ → Bool} {k : ℕ} :
    ∀ {cands : List ℕ}, (∀ x ∈ cands, (p x = true ↔ x = k)) → k ∈ cands →
      cands.find? p = some k := by
  intro cands
  induction cands with
  | nil => intro _ h; cases h
  | cons a rest ih =>
      intro huniq hmem
      by_cases ha : p a = true
      · have haek : a = k := (huniq a (List.mem_cons_self a rest)).mp ha
        subst haek
        exact List.find?_cons_of_pos _ ha
      · rw [List.find?_cons_of_neg _ ha]
        have hk : k ∈ rest := by
          rcases List.mem_cons.mp hmem with h | h
          · exact absurd ((huniq a (List.mem_cons_self a rest)).mpr h.symm) ha
          · exact h
        exact ih (fun x hx => huniq x (List.mem_cons_of_mem _ hx)) hk

/-- Every feature with a defined centroid is similar to itself, at any
tolerance with nonnegative length and angle fields: its centroid is at
distance 0 from itself, its length ratio difference is 0, and its bearing
difference is 0. -/
theorem areSimilarFeatures_self {f : Feature} {c : Point}
    (hc : getCentroid f.geometry = some c) {tol : Tolerance}
    (hL0 : 0 ≤ tol.LENGTH_FRAC) (hA0 : 0 ≤ tol.ANGLE) :
    areSimilarFeatures sqrtFn atan2Fn f f tol = true := by
  simp only [areSimilarFeatures, hc]
  have hd : ¬ tol.DISTANCE ^ 2 < distSq c c := by
    have : distSq c c = 0 := by simp [distSq]
    rw [this]
    exact not_lt.mpr (sq_nonneg _)
  rw [if_neg hd]
  have hl : ¬ (0 < max (getApproxLength sqrtFn f.geometry)
        (getApproxLength sqrtFn f.geometry) ∧
      tol.LENGTH_FRAC < 1 - min (getApproxLength sqrtFn f.geometry)
        (getApproxLength sqrtFn f.geometry) / max (getApproxLength sqrtFn f.geometry)
        (getApproxLength sqrtFn f.geometry)) := by
    rintro ⟨hpos, hlt⟩
    rw [max_self] at hpos hlt
    rw [min_self, div_self (ne_of_gt hpos)] at hlt
    simp only [sub_self] at hlt
    exact absurd (lt_of_le_of_lt hL0 hlt) (lt_irrefl 0)
  rw [if_neg hl]
  have hab : |getBearing sqrtFn atan2Fn f.geometry -
      getBearing sqrtFn atan2Fn f.geometry| = 0 := by
    simp
  rw [hab, if_neg (by norm_num : ¬ (90 : ℚ) < 0)]
  rw [if_neg (not_lt.mpr hA0)]

/-- Self-comparison of a collection whose features all have centroids and
are pairwise dissimilar: the greedy pass pairs every feature with itself.
Stated over an arbitrary suffix for the induction. -/
theorem greedy_self (l : List Feature) (tol : Tolerance)
    (hL0 : 0 ≤ tol.LENGTH_FRAC) (hA0 : 0 ≤ tol.ANGLE)
    (hcent : ∀ f ∈ l, (getCentroid f.geometry).isSome = true)
    (hsep : ∀ i j : ℕ, i ≠ j → areSimilarFeatures sqrtFn atan2Fn
      (l.getD i emptyFeature) (l.getD j emptyFeature) tol = false) :
    ∀ (suffix : List Feature) (k : ℕ) (claimed : List ℕ),
      suffix = l.drop k →
      (∀ a : ℕ, a ∈ claimed ↔ a < k) →
      greedyGo (passChoose sqrtFn atan2Fn l (indexBucket l) tol) suffix k claimed =
        ((List.range l.length).drop k).map fun i => (i, i) := by
  intro suffix
  induction suffix with
  | nil =>
      intro k claimed hdrop hcl
      have hk : l.length ≤ k := by
        have hlen := congrArg List.length hdrop
        simp only [List.length_nil, List.length_drop] at hlen
        omega
      rw [greedyGo, (List.drop_eq_nil_iff).mpr (by simpa using hk)]
      simp
  | cons f rest ih =>
      intro k claimed hdrop hcl
      have hlen := congrArg List.length hdrop
      simp only [List.length_cons, List.length_drop] at hlen
      have hk : k < l.length := by omega
      have hfk : l[k]? = some f := by
        have h0 : (l.drop k)[0]? = l[k + 0]? := List.getElem?_drop l k 0
        rw [← hdrop] at h0
        simpa using h0.symm
      have hrest : rest = l.drop (k + 1) := by
        have ht : (l.drop k).tail = l.drop (k + 1) := List.tail_drop l k
        rw [← hdrop] at ht
        simpa using ht
      have hfmem : f ∈ l := List.getElem?_mem hfk
      rcases Option.isSome_iff_exists.mp (hcent f hfmem) with ⟨c, hc⟩
      have hr1 : (1 : ℤ) ≤ cellSize tol := le_max_left 1 _
      have hchoose : passChoose sqrtFn atan2Fn l (indexBucket l) tol f claimed =
          some k := by
        unfold passChoose
        rw [hc]
        apply find?_eq_some_of_unique
        · intro x hx
          constructor
          · intro hpx
            by_contra hxk
            rw [Bool.and_eq_true] at hpx
            obtain ⟨_, hsim⟩ := hpx
            rcases hlx : l[x]? with _ | g
            · simp only [hlx] at hsim; cases hsim
            · simp only [hlx] at hsim
              have hgx : l.getD x emptyFeature = g := by
                rw [List.getD_eq_getElem?_getD, hlx]; rfl
              have hfk2 : l.getD k emptyFeature = f := by
                rw [List.getD_eq_getElem?_getD, hfk]; rfl
              have hfalse := hsep k x (fun h => hxk h.symm)
              rw [hfk2, hgx] at hfalse
              rw [hfalse] at hsim
              cases hsim
          · intro hxk
            subst hxk
            rw [Bool.and_eq_true]
            refine ⟨?_, ?_⟩
            · have hclk : x ∉ claimed := fun h => absurd ((hcl x).mp h) (lt_irrefl x)
              simpa using hclk
            · rw [hfk]
              exact areSimilarFeatures_self sqrtFn atan2Fn hc hL0 hA0
        · unfold candidatesFor
          refine List.mem_flatMap.mpr ⟨0, mem_offsets (by omega) (by omega), ?_⟩
          refine List.mem_flatMap.mpr ⟨0, mem_offsets (by omega) (by omega), ?_⟩
          simpa using mem_indexBucket hfk hc
      simp only [greedyGo, hchoose]
      rw [ih (k + 1) (k :: claimed) hrest ?_]
      · have hdropk : (List.range l.length).drop k =
            k :: (List.range l.length).drop (k + 1) := by
          rw [List.drop_eq_getElem_cons (by simpa using hk)]
          simp
        rw [hdropk]
        simp
      · intro a
        simp only [List.mem_cons, hcl]
        omega

/-- C2 (amended): self-comparison marks all `N` features unchanged with
`added = removed = 0` provided every feature has a defined centroid and
distinct features are pairwise non-similar under the tolerance; without the
separation hypothesis the greedy pass can strand features, as the
counterexample shows. -/
theorem claim_C2 (sqrtFn : ℚ → ℚ) (atan2Fn : ℚ → ℚ → ℚ) (l : List Feature)
    (tol : Tolerance) (hL0 : 0 ≤ tol.LENGTH_FRAC) (hA0 : 0 ≤ tol.ANGLE)
    (hcent : ∀ f ∈ l, (getCentroid f.geometry).isSome = true)
    (hsep : ∀ i j : ℕ, i ≠ j → areSimilarFeatures sqrtFn atan2Fn
      (l.getD i emptyFeature) (l.getD j emptyFeature) tol = false) :
    runComparisonPass sqrtFn atan2Fn l l (indexBucket l) tol =
      (List.range l.length).map (fun i => (i, i)) ∧
    (statsOf l l (runComparisonPass sqrtFn atan2Fn l l (indexBucket l) tol)).unchanged
      = l.length ∧
    (statsOf l l (runComparisonPass sqrtFn atan2Fn l l (indexBucket l) tol)).added = 0 ∧
    (statsOf l l (runComparisonPass sqrtFn atan2Fn l l (indexBucket l) tol)).removed
      = 0 := by
  have hmain : runComparisonPass sqrtFn atan2Fn l l (indexBucket l) tol =
      (List.range l.length).map fun i => (i, i) := by
    have hrun := greedy_self sqrtFn atan2Fn l tol hL0 hA0 hcent hsep l 0 []
      (by simp) (by simp)
    simpa [runComparisonPass] using hrun
  have hA : matchedAfter ((List.range l.length).map fun i => (i, i)) =
      List.range l.length := by
    simp [matchedAfter, List.map_map, Function.comp_def]
  have hB : matchedBefore ((List.range l.length).map fun i => (i, i)) =
      List.range l.length := by
    simp [matchedBefore, List.map_map, Function.comp_def]
  have hded : (List.range l.length).dedup = List.range l.length :=
    List.Nodup.dedup (List.nodup_range l.length)
  refine ⟨hmain, ?_, ?_, ?_⟩ <;>
    simp [statsOf, hmain, hA, hB, hded]

/-- Witness for the amended C2 on a one-feature collection. -/
theorem claim_C2_witness :
    runComparisonPass sqrtQ atan2Q [hseg 0 0] [hseg 0 0] (indexBucket [hseg 0 0])
      DEFAULT_TOLERANCE =
      (List.range ([hseg 0 0] : List Feature).length).map (fun i => (i, i)) ∧
    (statsOf [hseg 0 0] [hseg 0 0] (runComparisonPass sqrtQ atan2Q [hseg 0 0]
      [hseg 0 0] (indexBucket [hseg 0 0]) DEFAULT_TOLERANCE)).unchanged =
      ([hseg 0 0] : List Feature).length ∧
    (statsOf [hseg 0 0] [hseg 0 0] (runComparisonPass sqrtQ atan2Q [hseg 0 0]
      [hseg 0 0] (indexBucket [hseg 0 0]) DEFAULT_TOLERANCE)).added = 0 ∧
    (statsOf [hseg 0 0] [hseg 0 0] (runComparisonPass sqrtQ atan2Q [hseg 0 0]
      [hseg 0 0] (indexBucket [hseg 0 0]) DEFAULT_TOLERANCE)).removed = 0 :=
  claim_C2 sqrtQ atan2Q [hseg 0 0] DEFAULT_TOLERANCE
    (of_decide_eq_true (by with_unfolding_all rfl))
    (of_decide_eq_true (by with_unfolding_all rfl))
    (by
      intro f hf
      rcases List.mem_singleton.mp hf with rfl
      with_unfolding_all rfl)
    (by
      intro i j hij
      rcases i with _ | i <;> rcases j with _ | j
      · exact absurd rfl hij
      · with_unfolding_all rfl
      · with_unfolding_all rfl
      · with_unfolding_all rfl)

/-- The concrete comparison result used by the C4 witness: the one-feature
collection compared against itself calibrates at the first step and tags
the single feature unchanged. -/
def wOut : List (Feature × Status) × CalibResult :=
  ([(hseg 0 0, Status.unchanged)],
   { tolerance := stepTolerance 1, pairs := [(0, 0)],
     stats := { unchanged := 1, added := 0, removed := 0, changeRate := 0 } })

/-- Witness for C4 on the one-feature self-comparison. -/
theorem claim_C4_witness :
    ((wOut.1.filter fun t => t.2 = Status.added).length +
      (wOut.1.filter fun t => t.2 = Status.unchanged).length =
        ([hseg 0 0] : List Feature).length) ∧
    ((wOut.1.filter fun t => t.2 = Status.removed).length +
      (wOut.1.filter fun t => t.2 = Status.unchanged).length =
        ([hseg 0 0] : List Feature).length) :=
  claim_C4 sqrtQ atan2Q [hseg 0 0] [hseg 0 0] 1 wOut (by with_unfolding_all rfl)

/-- Witness for C5 on a concrete one-by-one validation. -/
theorem claim_C5_witness :
    (0 ≤ (RefData.validateAgainstReference sqrtQ [cexDetected0] [cexReference0]).precision ∧
      (RefData.validateAgainstReference sqrtQ [cexDetected0] [cexReference0]).precision ≤ 1) ∧
    (((RefData.validateAgainstReference sqrtQ [cexDetected0] [cexReference0]).precision = 0 ∨
        (RefData.validateAgainstReference sqrtQ [cexDetected0] [cexReference0]).recallScore = 0) →
      (RefData.validateAgainstReference sqrtQ [cexDetected0] [cexReference0]).f1Score = 0) :=
  ⟨(claim_C5 sqrtQ [cexDetected0] [cexReference0]
      (RefData.validateAgainstReference sqrtQ [cexDetected0] [cexReference0])
      rfl).2.2.2.2.2.2.1,
   (claim_C5 sqrtQ [cexDetected0] [cexReference0]
      (RefData.validateAgainstReference sqrtQ [cexDetected0] [cexReference0])
      rfl).2.2.2.2.2.2.2.2.2⟩

/-- Witness for C9: the origin feature is found from an origin query at the
default tolerance. -/
theorem claim_C9_witness :
    0 ≤ DEFAULT_TOLERANCE.DISTANCE ∧
    ([hseg 0 0] : List Feature)[0]? = some (hseg 0 0) ∧
    getCentroid (hseg 0 0).geometry = some (0, 0) ∧
    distSq (0, 0) (0, 0) ≤ DEFAULT_TOLERANCE.DISTANCE ^ 2 ∧
    0 ∈ candidatesFor (indexBucket [hseg 0 0]) (cellOf (0, 0))
      (cellSize DEFAULT_TOLERANCE) :=
  ⟨of_decide_eq_true (by with_unfolding_all rfl), rfl,
   by with_unfolding_all rfl,
   of_decide_eq_true (by with_unfolding_all rfl),
   claim_C9 [hseg 0 0] DEFAULT_TOLERANCE
     (of_decide_eq_true (by with_unfolding_all rfl)) (0, 0) 0 (hseg 0 0) (0, 0)
     rfl (by with_unfolding_all rfl)
     (of_decide_eq_true (by with_unfolding_all rfl))⟩

/-- The tolerance, pass result and statistics of one calibration step. -/
def stepResult (before after : List Feature) (idx : ℤ × ℤ → List ℕ) (s : ℚ) :
    CalibResult :=
  { tolerance := stepTolerance s
    pairs := runComparisonPass sqrtFn atan2Fn before after idx (stepTolerance s)
    stats := statsOf before after
      (runComparisonPass sqrtFn atan2Fn before after idx (stepTolerance s)) }

/-- The change rate achieved at one calibration step. -/
def stepRate (before after : List Feature) (idx : ℤ × ℤ → List ℕ) (s : ℚ) : ℚ :=
  (stepResult sqrtFn atan2Fn before after idx s).stats.changeRate

/-- Claim-side selection, first half: the first schedule step whose change
rate meets the acceptance bound. -/
def firstAcceptable (rate : ℚ → ℚ) (acc : ℚ) (ss : List ℚ) : Option ℚ :=
  ss.find? fun s => decide (rate s ≤ acc)

/-- Claim-side selection, second half: the fallback scan keeping the step
whose change rate is numerically closest to the target, the earliest step
on ties (strict improvement only). -/
def closestStep (rate : ℚ → ℚ) (target : ℚ) : ℚ → List ℚ → ℚ
  | cur, [] => cur
  | cur, s :: rest =>
      if |rate s - target| < |rate cur - target| then closestStep rate target s rest
      else closestStep rate target cur rest

/-- The calibration loop realizes the claim-side selection: starting from a
best step `s0`, it returns the first remaining step meeting the bound, or
the closest-to-target step among `s0` and the remaining ones. -/
theorem calibGo_eq_spec (before after : List Feature) (idx : ℤ × ℤ → List ℕ)
    (acc target : ℚ) :
    ∀ (ss : List ℚ) (s0 : ℚ),
      calibGo sqrtFn atan2Fn before after idx acc target ss
          (some (s0, (stepResult sqrtFn atan2Fn before after idx s0).pairs,
            (stepResult sqrtFn atan2Fn before after idx s0).stats)) =
        some (match firstAcceptable (stepRate sqrtFn atan2Fn before after idx) acc ss with
              | some s => stepResult sqrtFn atan2Fn before after idx s
              | none => stepResult sqrtFn atan2Fn before after idx
                  (closestStep (stepRate sqrtFn atan2Fn before after idx) target s0 ss)) := by
  intro ss
  induction ss with
  | nil =>
      intro s0
      simp only [calibGo, Option.map_some', firstAcceptable, List.find?_nil, closestStep]
      rfl
  | cons s rest ih =>
      intro s0
      simp only [calibGo]
      by_cases hrate : (statsOf before after
          (runComparisonPass sqrtFn atan2Fn before after idx (stepTolerance s))).changeRate
          ≤ acc
      · rw [if_pos hrate]
        have hfa : firstAcceptable (stepRate sqrtFn atan2Fn before after idx) acc
            (s :: rest) = some s :=
          List.find?_cons_of_pos _ (by
            simpa [stepRate, stepResult] using decide_eq_true hrate)
        rw [hfa]
        rfl
      · rw [if_neg hrate]
        have hfa : firstAcceptable (stepRate sqrtFn atan2Fn before after idx) acc
            (s :: rest) = firstAcceptable (stepRate sqrtFn atan2Fn before after idx)
              acc rest := by
          unfold firstAcceptable
          exact List.find?_cons_of_neg _ (by
            simpa [stepRate, stepResult] using decide_eq_false hrate)
        rw [hfa]
        by_cases hcmp : |(statsOf before after (runComparisonPass sqrtFn atan2Fn before
            after idx (stepTolerance s))).changeRate - target| <
            |(stepResult sqrtFn atan2Fn before after idx s0).stats.changeRate - target|
        · rw [if_pos hcmp]
          have hcs : closestStep (stepRate sqrtFn atan2Fn before after idx) target s0
              (s :: rest) = closestStep (stepRate sqrtFn atan2Fn before after idx)
                target s rest := by
            simp only [closestStep]
            rw [if_pos (by simpa [stepRate, stepResult] using hcmp)]
          rw [hcs]
          exact ih s
        · rw [if_neg hcmp]
          have hcs : closestStep (stepRate sqrtFn atan2Fn before after idx) target s0
              (s :: rest) = closestStep (stepRate sqrtFn atan2Fn before after idx)
                target s0 rest := by
            simp only [closestStep]
            rw [if_neg (by simpa [stepRate, stepResult] using hcmp)]
          rw [hcs]
          exact ih s0

/-- C6 (amended): the Auto-Calibrator walks the fixed ascending schedule
1.0, 1.5, 2.0, 3.0, 4.0, 6.0, 8.0, 10.0 with the length fraction capped at
0.95 and the angle at 80 degrees, and returns the first step whose change
rate is at most `min(2 * expectedYearlyRate * yearsElapsed, 0.15)`, falling
back to the step whose change rate is numerically closest to
`expectedYearlyRate * yearsElapsed` (the earliest such step on ties).  The
change rate computed at a step is `(added + removed) / |before|` when
`|before| > 0` and 0 when `|before| = 0` — not
`(added + removed) / max(1, |before|)`, which the counterexample refutes. -/
theorem claim_C6 (sqrtFn : ℚ → ℚ) (atan2Fn : ℚ → ℚ → ℚ)
    (before after : List Feature) (idx : ℤ × ℤ → List ℕ) (yearsDiff : ℚ) :
    (∀ s : ℚ, (stepTolerance s).LENGTH_FRAC ≤ 19/20 ∧ (stepTolerance s).ANGLE ≤ 80) ∧
    calibrationSteps = [1, 3/2, 2, 3, 4, 6, 8, 10] ∧
    autoCalibrateTolerance sqrtFn atan2Fn before after idx yearsDiff =
      some (match firstAcceptable (stepRate sqrtFn atan2Fn before after idx)
              (min (EXPECTED_YEARLY_RATE * yearsDiff * 2) (3/20)) calibrationSteps with
            | some s => stepResult sqrtFn atan2Fn before after idx s
            | none => stepResult sqrtFn atan2Fn before after idx
                (closestStep (stepRate sqrtFn atan2Fn before after idx)
                  (EXPECTED_YEARLY_RATE * yearsDiff) 1 [3/2, 2, 3, 4, 6, 8, 10])) := by
  refine ⟨fun s => ⟨min_le_left _ _, min_le_left _ _⟩, rfl, ?_⟩
  simp only [autoCalibrateTolerance, calibrationSteps, calibGo]
  by_cases hrate : (statsOf before after
      (runComparisonPass sqrtFn atan2Fn before after idx (stepTolerance 1))).changeRate
      ≤ min (EXPECTED_YEARLY_RATE * yearsDiff * 2) (3/20)
  · rw [if_pos hrate]
    have hfa : firstAcceptable (stepRate sqrtFn atan2Fn before after idx)
        (min (EXPECTED_YEARLY_RATE * yearsDiff * 2) (3/20))
        [1, 3/2, 2, 3, 4, 6, 8, 10] = some 1 :=
      List.find?_cons_of_pos _ (by
        simpa [stepRate, stepResult] using decide_eq_true hrate)
    rw [hfa]
    rfl
  · rw [if_neg hrate]
    have hfa : firstAcceptable (stepRate sqrtFn atan2Fn before after idx)
        (min (EXPECTED_YEARLY_RATE * yearsDiff * 2) (3/20))
        [1, 3/2, 2, 3, 4, 6, 8, 10] =
        firstAcceptable (stepRate sqrtFn atan2Fn before after idx)
          (min (EXPECTED_YEARLY_RATE * yearsDiff * 2) (3/20))
          [3/2, 2, 3, 4, 6, 8, 10] := by
      unfold firstAcceptable
      exact List.find?_cons_of_neg _ (by
        simpa [stepRate, stepResult] using decide_eq_false hrate)
    rw [hfa]
    exact calibGo_eq_spec sqrtFn atan2Fn before after idx
      (min (EXPECTED_YEARLY_RATE * yearsDiff * 2) (3/20))
      (EXPECTED_YEARLY_RATE * yearsDiff) [3/2, 2, 3, 4, 6, 8, 10] 1

/-- Scanning the still-free reference indices with the bare match predicate
equals the validator's scan of the full range with the claimed-filter
conjoined, when the free list is the unclaimed filter of the range. -/
theorem valChoose_eq_find_free (sqrtFn : ℚ → ℚ) (reference : List Feature)
    (d : Feature) (claimed : List ℕ) :
    ((List.range reference.length).filter fun j => !claimed.contains j).find?
        (fun j => match reference[j]? with
          | some r => RefData.isMatchingFeature sqrtFn d r
          | none => false) =
      RefData.valChoose sqrtFn reference d claimed := by
  rw [List.find?_filter]
  unfold RefData.valChoose
  congr 1
  funext j
  cases hb : (!claimed.contains j) <;> simp [hb]

/-- Claiming an index shrinks the free list: erasing it from the unclaimed
filter of the range equals filtering with the enlarged claimed set. -/
theorem free_erase_eq (n j : ℕ) (claimed : List ℕ) :
    (((List.range n).filter fun x => !claimed.contains x).erase j) =
      (List.range n).filter fun x => !(j :: claimed).contains x := by
  rw [((List.nodup_range n).filter _).erase_eq_filter j, List.filter_filter]
  exact List.filter_congr fun x _ => by by_cases hxj : x = j <;> simp [hxj]

/-- The validator's greedy loop over a claimed set equals the spec-side
free-list greedy matcher instantiated with `isMatchingFeature`, with the
free list the unclaimed filter of the reference range. -/
theorem greedyGo_eq_specGreedyMatch (sqrtFn : ℚ → ℚ) (reference : List Feature)
    (ds : List Feature) : ∀ (i : ℕ) (claimed : List ℕ),
    greedyGo (RefData.valChoose sqrtFn reference) ds i claimed =
      specGreedyMatch (fun d r => RefData.isMatchingFeature sqrtFn d r) reference ds i
        ((List.range reference.length).filter fun j => !claimed.contains j) := by
  induction ds with
  | nil => intro i claimed; rfl
  | cons d ds ih =>
      intro i claimed
      simp only [greedyGo, specGreedyMatch]
      rw [valChoose_eq_find_free sqrtFn reference d claimed]
      rcases hch : RefData.valChoose sqrtFn reference d claimed with _ | j
      · simp only [hch]
        exact ih (i + 1) claimed
      · simp only [hch]
        rw [free_erase_eq reference.length j claimed, ← ih (i + 1) (j :: claimed)]

/-- C7 (amended): `validateAgainstReference` matches detected (the after
side) against reference (the before side) by greedy first-free search in
reference index order under the TWO-criterion predicate `isMatchingFeature`
(centroid distance, plus length ratio only when both geometries are
LineStrings; no angle criterion, no spatial index): its matched-pair
relation equals the sequential free-list greedy matcher instantiated with
`isMatchingFeature`, started on the full reference range, and
`truePositives` counts exactly those matched pairs.  Agreement with the
three-criterion `areSimilarFeatures` matcher is refuted by the
counterexample. -/
theorem claim_C7 (sqrtFn : ℚ → ℚ) (detected reference : List Feature) :
    RefData.valPairs sqrtFn detected reference =
      specGreedyMatch (fun d r => RefData.isMatchingFeature sqrtFn d r) reference
        detected 0 (List.range reference.length) ∧
    (RefData.validateAgainstReference sqrtFn detected reference).truePositives =
      (RefData.valPairs sqrtFn detected reference).length := by
  constructor
  · have h := greedyGo_eq_specGreedyMatch sqrtFn reference detected 0 []
    have hfull : ((List.range reference.length).filter fun j =>
        !([] : List ℕ).contains j) = List.range reference.length :=
      List.filter_eq_self.mpr fun a _ => rfl
    rw [hfull] at h
    exact h
  · show (matchedAfter (RefData.valPairs sqrtFn detected reference)).dedup.length = _
    rw [(valPairs_snd_nodup sqrtFn detected reference).dedup]
    exact List.length_map _ _

end Tile2Net


